import Mathlib

/-!
Verification of the location_intelligence repository.

This file gives a shallow embedding, in Lean 4, of the pure core of the
repository's three source files:

* `src/services/locationService.ts` — embedded below in namespace `Client`;
* the express server source (`src/unnamed/part_000`) — embedded in
  namespace `Server`;
* `src/server/server.js` is an older stub of the same server and is not the
  subject of any claim.

Modelling conventions:

* JavaScript numbers are modelled as `ℚ`.  `Math.round` rounds half towards
  positive infinity, which agrees with Mathlib's `round` (`round x = ⌊x + 1/2⌋`);
  we define `jsRound` executably via `Rat.floor` and prove it equal to `round`.
* JavaScript strings are Lean `String`s.  `trim`/`toLowerCase` are modelled by
  `jsTrim`/`jsToLower` over the character list (ASCII lowering, the common
  whitespace set).  `localeCompare` on names is modelled as lexicographic
  code-point order on the character lists.
* Missing (`undefined`/`null`) string fields are conflated with `""` — the code
  only ever consumes them through `|| fallback`, `.trim()` and `Boolean(...)`,
  for which `undefined` and `""` behave identically.  Missing numeric breakdown
  fields are `Option ℚ` (`?? 0` / `Number(x) || 0` turn them into `0`).
* `Array.prototype.sort` with the distance/name comparator is modelled as the
  stable `List.insertionSort` over the total preorder `infraLE`.
* External effects (the generative-AI service, `crypto.createHash`) enter as
  explicit oracle parameters: an `Except String _` value standing for the
  outcome of the one external call a function makes, and a `String → String`
  parameter standing for the SHA-256 hex digest.
-/

section LocationIntelligence

attribute [local semireducible] Rat.ofScientific Rat.mul Rat.inv Rat.add Rat.sub

namespace LocIntel

/-- Whitespace recognised by the JavaScript `trim()` model. -/
def isJsWS (c : Char) : Bool :=
  c = ' ' || c = '\t' || c = '\n' || c = '\r' || c = '\x0b' || c = '\x0c' ||
  c.toNat = 160 || c.toNat = 65279 || c.toNat = 8232 || c.toNat = 8233

/-- Drop trailing characters satisfying `p`. -/
def dropTrail (p : Char → Bool) (l : List Char) : List Char :=
  (l.reverse.dropWhile p).reverse

/-- Model of `String.prototype.trim`. -/
def jsTrim (s : String) : String :=
  ⟨dropTrail isJsWS (s.data.dropWhile isJsWS)⟩

/-- ASCII lower-casing of one character (model of `toLowerCase` per char). -/
def jsLowerChar (c : Char) : Char :=
  if 'A' ≤ c ∧ c ≤ 'Z' then Char.ofNat (c.toNat + 32) else c

/-- Model of `String.prototype.toLowerCase`. -/
def jsToLower (s : String) : String :=
  ⟨s.data.map jsLowerChar⟩

/-- Model of JavaScript `a || b` on strings (`""` is the only falsy string). -/
def jsOr (a b : String) : String :=
  if a = "" then b else a

/-- Model of `Math.round` (half rounds towards `+∞`). -/
def jsRound (x : ℚ) : ℤ :=
  (x + 1/2).floor

/-- `Math.round(x * 10) / 10` — round to one decimal place. -/
def round1 (x : ℚ) : ℚ :=
  (jsRound (x * 10) : ℚ) / 10

/-- `Math.round(x * 100) / 100` — round to two decimal places. -/
def round2 (x : ℚ) : ℚ :=
  (jsRound (x * 100) : ℚ) / 100

/-- `clampScore` as defined identically in both source files:
`Math.max(0, Math.min(100, Number(value) || 0))`. -/
def clampScore (x : ℚ) : ℚ :=
  max 0 (min 100 x)

/-- One breakdown sub-score as both normalizers compute it:
`Math.round(clampScore(raw?.breakdown?.f ?? 0) * 10) / 10`. -/
def subScore (v : Option ℚ) : ℚ :=
  round1 (clampScore (v.getD 0))

/-- One step of the FNV-1a loop shared by both `stableSeed` implementations:
`hash ^= charCode; hash = Math.imul(hash, 16777619)` on 32-bit values. -/
def fnvStep (h : ℕ) (c : Char) : ℕ :=
  ((h.xor c.toNat) * 16777619) % (2 ^ 32)

/-- An infrastructure entry (`{ name, category, distance }`).  The same shape
serves for raw model-supplied items and for normalized items. -/
structure InfraItem where
  name : String
  category : String
  distance : ℚ
deriving DecidableEq

/-- The five raw breakdown sub-scores; `none` models a missing field. -/
structure RawBreakdown where
  connectivity : Option ℚ := none
  healthcare : Option ℚ := none
  education : Option ℚ := none
  retail : Option ℚ := none
  employment : Option ℚ := none
deriving DecidableEq

/-- The five normalized breakdown sub-scores. -/
@[ext]
structure Breakdown where
  connectivity : ℚ
  healthcare : ℚ
  education : ℚ
  retail : ℚ
  employment : ℚ
deriving DecidableEq

/-- A raw, loosely-typed analysis record (`Partial<LocationAnalysis>`). -/
structure RawAnalysis where
  city : String := ""
  sector : String := ""
  overallScore : Option ℚ := none
  label : String := ""
  breakdown : RawBreakdown := {}
  infrastructure : List InfraItem := []
  summary : String := ""
deriving DecidableEq

/-- A well-formed analysis result (`LocationAnalysis`). -/
@[ext]
structure Analysis where
  city : String
  sector : String
  overallScore : ℚ
  label : String
  breakdown : Breakdown
  infrastructure : List InfraItem
  summary : String
deriving DecidableEq

/-- Reinterpret a normalized result as a raw record, for feeding the
normalizer its own output (`Partial<LocationAnalysis>` accepts it as-is). -/
def toRaw (a : Analysis) : RawAnalysis :=
  { city := a.city
    sector := a.sector
    overallScore := some a.overallScore
    label := a.label
    breakdown :=
      { connectivity := some a.breakdown.connectivity
        healthcare := some a.breakdown.healthcare
        education := some a.breakdown.education
        retail := some a.breakdown.retail
        employment := some a.breakdown.employment }
    infrastructure := a.infrastructure
    summary := a.summary }

/-- `computeLabel`, defined identically in both source files. -/
def computeLabel (overallScore : ℚ) : String :=
  if 90 ≤ overallScore then "Excellent"
  else if 82 ≤ overallScore then "High Growth"
  else if 74 ≤ overallScore then "Good"
  else "Emerging"

/-- The total preorder realised by the comparator
`(a, b) => a.distance - b.distance || a.name.localeCompare(b.name)`:
ascending distance, name as tie-break. -/
def infraLE (a b : InfraItem) : Prop :=
  a.distance < b.distance ∨ (a.distance = b.distance ∧ a.name.data ≤ b.name.data)

instance : DecidableRel infraLE := fun a b => by
  unfold infraLE; exact inferInstance

instance : IsTotal InfraItem infraLE where
  total a b := by
    rcases lt_trichotomy a.distance b.distance with h | h | h
    · exact Or.inl (Or.inl h)
    · rcases le_total a.name.data b.name.data with hn | hn
      · exact Or.inl (Or.inr ⟨h, hn⟩)
      · exact Or.inr (Or.inr ⟨h.symm, hn⟩)
    · exact Or.inr (Or.inl h)

instance : IsTrans InfraItem infraLE where
  trans a b c hab hbc := by
    rcases hab with h1 | ⟨e1, n1⟩
    · rcases hbc with h2 | ⟨e2, _⟩
      · exact Or.inl (h1.trans h2)
      · exact Or.inl (e2 ▸ h1)
    · rcases hbc with h2 | ⟨e2, n2⟩
      · exact Or.inl (e1 ▸ h2)
      · exact Or.inr ⟨e1.trans e2, n1.trans n2⟩

/-- ASCII letter test (`[a-zA-Z]`). -/
def isAsciiLetter (c : Char) : Bool :=
  ('a' ≤ c && c ≤ 'z') || ('A' ≤ c && c ≤ 'Z')

/-- ASCII digit test (`[0-9]`). -/
def isDigitChar (c : Char) : Bool :=
  '0' ≤ c && c ≤ '9'

/-- Vowel test (`[aeiouAEIOU]`). -/
def isVowel (c : Char) : Bool :=
  ['a', 'e', 'i', 'o', 'u', 'A', 'E', 'I', 'O', 'U'].contains c

/-- Characters allowed by the validator regex `[^a-zA-Z0-9\s,.'-]`
(code 39 is the apostrophe). -/
def isAllowedChar (c : Char) : Bool :=
  isAsciiLetter c || isDigitChar c || isJsWS c ||
  c = ',' || c = '.' || c.toNat = 39 || c = '-'

/-- `/[0-9]{5,}/.test` — some run of five or more consecutive digits. -/
def hasDigitRun (l : List Char) : Bool :=
  (l.foldl
    (fun (st : ℕ × Bool) c =>
      if isDigitChar c then (st.1 + 1, st.2 || decide (5 ≤ st.1 + 1)) else (0, st.2))
    (0, false)).2

/-- `/([a-zA-Z])\1{3,}/.test` — some letter repeated four or more times
consecutively. -/
def hasQuadLetter : List Char → Bool
  | a :: b :: c :: d :: rest =>
      (isAsciiLetter a && a == b && b == c && c == d) || hasQuadLetter (b :: c :: d :: rest)
  | _ => false

/-- Result shape of the input validator (`{ isValid, reason }`). -/
structure ValidationResult where
  isValid : Bool
  reason : String
deriving DecidableEq

/-- Result shape of the ambiguity check (`{ isAmbiguous, suggestedCities }`). -/
structure Ambiguity where
  isAmbiguous : Bool
  suggestedCities : List String
deriving DecidableEq

namespace Client

/-- `stableSeed` from `locationService.ts`: the 32-bit FNV-1a loop with the
final `>>> 0` (a no-op in the unsigned-bit-pattern model). -/
def stableSeed (input : String) : ℕ :=
  input.data.foldl fnvStep 2166136261

/-- `getCacheKey` from `locationService.ts`. -/
def getCacheKey (city sector : String) : String :=
  jsToLower (jsTrim city) ++ "::" ++ jsToLower (jsTrim sector)

/-- Seed used by `validateLocationInput`'s generation call. -/
def validateSeed (key : String) : ℕ := stableSeed ("validate::" ++ key)

/-- Seed used by `getCityMatches`'s generation call. -/
def matchSeed (key : String) : ℕ := stableSeed ("match::" ++ key)

/-- Seed used by `analyzeLocation`'s generation call. -/
def analysisSeed (key : String) : ℕ := stableSeed ("analysis::" ++ key)

/-- `isObviouslyGibberish` from `locationService.ts`, checks in source order. -/
def isObviouslyGibberish (value : String) : Bool :=
  let trimmed := jsTrim value
  if trimmed = "" then true
  else if trimmed.data.length < 2 then true
  else if hasDigitRun trimmed.data then true
  else if trimmed.data.any (fun c => !(isAllowedChar c)) then true
  else
    let lettersOnly := trimmed.data.filter isAsciiLetter
    if lettersOnly.length < 2 then true
    else if hasQuadLetter trimmed.data then true
    else if !(lettersOnly.any isVowel) && decide (4 < lettersOnly.length) then true
    else false

/-- The `.map` step of the client normalizer's infrastructure pipeline. -/
def coerceItem (it : InfraItem) : InfraItem :=
  { name := jsOr it.name "Unnamed Infrastructure"
    category := jsOr it.category "Metro"
    distance := round2 (max 0 it.distance) }

/-- The client infrastructure pipeline before backfilling:
`(raw.infrastructure || []).map(...).sort(...).slice(0, 8)`. -/
def preparedInfra (raw : RawAnalysis) : List InfraItem :=
  (List.insertionSort infraLE (raw.infrastructure.map coerceItem)).take 8

/-- `MIN_INFRASTRUCTURE_POINTS`. -/
def MIN_INFRASTRUCTURE_POINTS : ℕ := 5

/-- The five fallback entries of `ensureMinimumInfrastructure`. -/
def fallbacks (city sector : String) : List InfraItem :=
  [ { name := sector ++ " Metro Station", category := "Metro", distance := 0.9 }
  , { name := city ++ " Multi-Speciality Hospital", category := "Hospital", distance := 1.8 }
  , { name := sector ++ " Public School", category := "School", distance := 1.4 }
  , { name := city ++ " Central Mall", category := "Mall", distance := 2.6 }
  , { name := city ++ " Tech Park", category := "Office", distance := 3.2 } ]

/-- The fallback loop of `ensureMinimumInfrastructure`: `items` is the
accumulated array, `seen` the set of lower-cased names. -/
def ensureGo : List InfraItem → List InfraItem → List String → List InfraItem
  | [], items, _ => items
  | fb :: rest, items, seen =>
    if MIN_INFRASTRUCTURE_POINTS ≤ items.length then items
    else if jsToLower fb.name ∈ seen then ensureGo rest items seen
    else ensureGo rest (items ++ [fb]) (jsToLower fb.name :: seen)

/-- `ensureMinimumInfrastructure` from `locationService.ts`. -/
def ensureMinimumInfrastructure (input : List InfraItem) (city sector : String) :
    List InfraItem :=
  ensureGo (fallbacks city sector) input (input.map (fun it => jsToLower it.name))

/-- `normalizeAnalysis` from `locationService.ts`. -/
def normalizeAnalysis (raw : RawAnalysis) (city sector : String) : Analysis :=
  let breakdown : Breakdown :=
    { connectivity := subScore raw.breakdown.connectivity
      healthcare := subScore raw.breakdown.healthcare
      education := subScore raw.breakdown.education
      retail := subScore raw.breakdown.retail
      employment := subScore raw.breakdown.employment }
  let weightedOverall :=
    breakdown.connectivity * 0.25 +
    breakdown.healthcare * 0.15 +
    breakdown.education * 0.15 +
    breakdown.retail * 0.15 +
    breakdown.employment * 0.15
  let overallScore := round1 (clampScore weightedOverall)
  { city := jsOr raw.city (jsOr city "Unknown Indian City")
    sector := jsOr raw.sector (jsOr sector "General District")
    overallScore
    label := computeLabel overallScore
    breakdown
    infrastructure :=
      ensureMinimumInfrastructure (preparedInfra raw) (jsOr city "City") (jsOr sector "Locality")
    summary :=
      jsOr raw.summary
        "This Indian location demonstrates strong appreciation potential driven by connectivity, services, and employment access." }

/-- `validateLocationInput` from `locationService.ts`, its single generation
call abstracted as the `svc` oracle and the two cache tiers passed explicitly
(the persistent tier is taken after its load-time TTL filtering).  Only the
returned verdict is modelled; the cache writes have no bearing on it. -/
def validateLocationInput (svc : Except String ValidationResult)
    (memCache persistCache : List (String × ValidationResult))
    (city sector : String) : ValidationResult :=
  let cacheKey := getCacheKey city sector
  match memCache.lookup cacheKey with
  | some v => v
  | none =>
    match persistCache.lookup cacheKey with
    | some v => v
    | none =>
      if isObviouslyGibberish city || isObviouslyGibberish sector then
        { isValid := false, reason := "Invalid input. Enter a valid city and locality." }
      else
        match svc with
        | .ok parsed =>
            { isValid := parsed.isValid
              reason := jsOr parsed.reason
                (if parsed.isValid then "Valid input" else "Invalid input. Enter a valid city and locality.") }
        | .error _ =>
            { isValid := true, reason := "Validation skipped due to temporary issue." }

/-- `getCityMatches` from `locationService.ts`, with oracle and explicit
caches; the catch branch fails open to `{ isAmbiguous: false }`. -/
def getCityMatches (svc : Except String Ambiguity)
    (memCache persistCache : List (String × Ambiguity))
    (city sector : String) : Ambiguity :=
  let cacheKey := getCacheKey city sector
  match memCache.lookup cacheKey with
  | some v => v
  | none =>
    match persistCache.lookup cacheKey with
    | some v => v
    | none =>
      match svc with
      | .ok parsed => parsed
      | .error _ => { isAmbiguous := false, suggestedCities := [] }

end Client

namespace Server

/-- `normalize` from the server source: `(value || "").trim()`. -/
def normalize (value : String) : String :=
  jsTrim value

/-- `getInputKey` from the server source. -/
def getInputKey (city sector : String) : String :=
  jsToLower (normalize city) ++ "::" ++ jsToLower (normalize sector)

/-- `stableSeed` from the server source: the same FNV-1a loop, but reduced
`% 2147483647` at the end. -/
def stableSeed (input : String) : ℕ :=
  (input.data.foldl fnvStep 2166136261) % 2147483647

/-- Seed used by the server `validateInput`'s generation call. -/
def validateSeed (key : String) : ℕ := stableSeed ("validate::" ++ key)

/-- Seed used by the server `detectAmbiguity`'s generation call. -/
def matchSeed (key : String) : ℕ := stableSeed ("match::" ++ key)

/-- Seed used by the server `analyze`'s generation call. -/
def analysisSeed (key : String) : ℕ := stableSeed ("analysis::" ++ key)

/-- The message of `isModelNotFound`:
`message.includes("not found") || message.includes("NOT_FOUND")`. -/
def isModelNotFoundMsg (message : String) : Bool :=
  message.data.tails.any (fun t => "not found".data.isPrefixOf t) ||
  message.data.tails.any (fun t => "NOT_FOUND".data.isPrefixOf t)

/-- `generateContentWithModelFallback`'s candidate loop: `gen` maps a model
candidate to the outcome of its `generateContent` call, `lastError` is the
accumulator. -/
def genFallbackGo {R : Type} (gen : String → Except String R) :
    List String → Option String → Except String R
  | [], lastError => .error (lastError.getD "No compatible Gemini model found.")
  | model :: rest, lastError =>
    match gen model with
    | .ok r => .ok r
    | .error e =>
      if isModelNotFoundMsg e then genFallbackGo gen rest (some e) else .error e

/-- `generateContentWithModelFallback` from the server source, over an
arbitrary ordered candidate list (`MODEL_CANDIDATES` is configurable). -/
def generateContentWithModelFallback {R : Type} (gen : String → Except String R)
    (candidates : List String) : Except String R :=
  genFallbackGo gen candidates none

/-- `ACCURATE_LANDMARK_DATA_UNAVAILABLE`. -/
def ACCURATE_LANDMARK_DATA_UNAVAILABLE : String :=
  "Accurate landmark data not available for this exact location."

/-- `normalizeCategory` from the server source. -/
def normalizeCategory (value : String) : String :=
  let v := jsToLower (jsTrim value)
  if v = "metro" then "Metro"
  else if v = "hospital" then "Hospital"
  else if v = "school" then "School"
  else if v = "mall" then "Mall"
  else if v = "park" then "Park"
  else "Office"

/-- `isGenericLandmarkName` from the server source. -/
def isGenericLandmarkName (name : String) : Bool :=
  let normalized := jsToLower (jsTrim name)
  if normalized = "" then true
  else
    [ "express link metro", "city wellness center",
      "global international school", "unnamed infrastructure" ].contains normalized

/-- `isObviouslyGibberish` from the server source (same checks as the client
version, in the server's order). -/
def isObviouslyGibberish (value : String) : Bool :=
  let text := normalize value
  if text = "" || text.data.length < 2 then true
  else if hasDigitRun text.data then true
  else if text.data.any (fun c => !(isAllowedChar c)) then true
  else if hasQuadLetter text.data then true
  else
    let letters := text.data.filter isAsciiLetter
    if letters.length < 2 then true
    else if !(letters.any isVowel) && decide (4 < letters.length) then true
    else false

/-- `fallbackAnalysis` from the server source. -/
def fallbackAnalysis (city sector : String) : Analysis :=
  { city := jsOr city "Unknown Indian City"
    sector := jsOr sector "General District"
    overallScore := 88.5
    label := "High Growth"
    breakdown :=
      { connectivity := 92, healthcare := 85, education := 88, retail := 82, employment := 90 }
    infrastructure := []
    summary := ACCURATE_LANDMARK_DATA_UNAVAILABLE }

/-- The `.map` step of the server normalizer's infrastructure pipeline. -/
def coerceItem (it : InfraItem) : InfraItem :=
  { name := jsTrim it.name
    category := normalizeCategory it.category
    distance := round2 (max 0 it.distance) }

/-- The `.filter` step of the server normalizer:
`Boolean(item.name) && !isGenericLandmarkName(item.name)`. -/
def keepItem (it : InfraItem) : Bool :=
  !(it.name == "") && !(isGenericLandmarkName it.name)

/-- The server infrastructure pipeline:
`map(...).filter(...).sort(...).slice(0, 8)` — no backfill. -/
def preparedInfra (raw : RawAnalysis) : List InfraItem :=
  (List.insertionSort infraLE ((raw.infrastructure.map coerceItem).filter keepItem)).take 8

/-- `normalizeAnalysis` from the server source. -/
def normalizeAnalysis (raw : RawAnalysis) (city sector : String) : Analysis :=
  let breakdown : Breakdown :=
    { connectivity := subScore raw.breakdown.connectivity
      healthcare := subScore raw.breakdown.healthcare
      education := subScore raw.breakdown.education
      retail := subScore raw.breakdown.retail
      employment := subScore raw.breakdown.employment }
  let overallScore := round1 (clampScore
    (breakdown.connectivity * 0.25 +
     breakdown.healthcare * 0.15 +
     breakdown.education * 0.15 +
     breakdown.retail * 0.15 +
     breakdown.employment * 0.15))
  let infrastructure := preparedInfra raw
  { city := jsOr raw.city city
    sector := jsOr raw.sector sector
    overallScore
    label := computeLabel overallScore
    breakdown
    infrastructure
    summary :=
      if infrastructure = [] then ACCURATE_LANDMARK_DATA_UNAVAILABLE
      else
        jsOr raw.summary
          "This Indian location demonstrates strong appreciation potential driven by connectivity, services, and employment access." }

/-- The external-world inputs of one `processRequest` run: whether an API key
is configured (`ai`), and the outcome of the (at most one) generation call
each stage would make — `.error` covers a thrown call as well as unparsable
response text. -/
structure Oracles where
  ai : Bool
  validateSvc : Except String ValidationResult
  ambiguitySvc : Except String Ambiguity
  analyzeSvc : Except String RawAnalysis

/-- `validateInput` from the server source.  Its own try/catch fails open. -/
def validateInput (o : Oracles) (city sector : String) (key : String) : ValidationResult :=
  if isObviouslyGibberish city || isObviouslyGibberish sector then
    { isValid := false, reason := "Invalid input. Enter a valid city and locality." }
  else if !o.ai then
    { isValid := true, reason := "Validation skipped (no API key)." }
  else
    match o.validateSvc with
    | .ok parsed =>
        { isValid := parsed.isValid
          reason := jsOr parsed.reason (if parsed.isValid then "Valid input." else "Invalid input.") }
    | .error _ => { isValid := true, reason := "Validation unavailable, proceeding." }

/-- `detectAmbiguity` from the server source.  It has no try/catch: a failing
external call propagates as `.error`. -/
def detectAmbiguity (o : Oracles) (key : String) : Except String Ambiguity :=
  if !o.ai then .ok { isAmbiguous := false, suggestedCities := [] }
  else o.ambiguitySvc

/-- `analyze` from the server source.  No try/catch either. -/
def analyze (o : Oracles) (city sector : String) (key : String) : Except String Analysis :=
  if !o.ai then .ok (fallbackAnalysis city sector)
  else o.analyzeSvc.map (fun parsed => normalizeAnalysis parsed city sector)

/-- A pending request's identifying fields. -/
structure InputItem where
  city : String
  sector : String
deriving DecidableEq

/-- The outcome fields `processRequest` produces for the stored record. -/
structure Outcome where
  status : String
  result : Option Analysis
  error : Option String
  suggestedCities : List String
deriving DecidableEq

/-- `processRequest` from the server source; `.error` is an exception escaping
to the route handler. -/
def processRequest (o : Oracles) (item : InputItem) : Except String Outcome :=
  let key := getInputKey item.city item.sector
  let validation := validateInput o item.city item.sector key
  if !validation.isValid then
    .ok { status := "invalid_input", result := none
          error := some (jsOr validation.reason "Invalid input. Enter a valid city and locality.")
          suggestedCities := [] }
  else
    match detectAmbiguity o key with
    | .error e => .error e
    | .ok ambiguity =>
      if ambiguity.isAmbiguous && decide (1 < ambiguity.suggestedCities.length) then
        .ok { status := "needs_clarification", result := none
              error := some "Input is ambiguous. Please choose a city."
              suggestedCities := ambiguity.suggestedCities }
      else
        match analyze o item.city item.sector key with
        | .error e => .error e
        | .ok result =>
          .ok { status := "done", result := some result, error := none, suggestedCities := [] }

/-- The `/api/reply/:id` handler's computation around `processRequest`: its
catch block turns any escaped exception into a terminal `done` with the
deterministic fallback analysis. -/
def replyCompute (o : Oracles) (item : InputItem) : Outcome :=
  match processRequest o item with
  | .ok out => out
  | .error _ =>
      { status := "done", result := some (fallbackAnalysis item.city item.sector)
        error := some "Model unavailable. Returned fallback response."
        suggestedCities := [] }

/-- One stored request record (`store` entry). -/
structure RequestRecord where
  id : String
  city : String
  sector : String
  status : String
  result : Option Analysis
  error : Option String
  suggestedCities : List String
deriving DecidableEq

/-- The server's two in-memory maps, as association lists (later bindings are
prepended; `lookup` finds the most recent, as `Map.set`/`Map.get` does for the
unique binding per key). -/
structure ServerState where
  store : List (String × RequestRecord)
  inputKeyMap : List (String × String)
deriving DecidableEq

/-- Response of the `/api/input` endpoint. -/
inductive SubmitResult where
  | badRequest (message : String)
  | ok (id : String) (status : String)
deriving DecidableEq

/-- The `/api/input` handler, with `crypto.createHash("sha256")...digest("hex")`
abstracted as the function `sha256hex`. -/
def submit (sha256hex : String → String) (st : ServerState)
    (rawCity rawSector : String) : SubmitResult × ServerState :=
  let city := normalize rawCity
  let sector := normalize rawSector
  if city = "" ∨ sector = "" then
    (.badRequest "Both city and sector are required.", st)
  else
    let key := getInputKey city sector
    match st.inputKeyMap.lookup key with
    | some existingId =>
      let status :=
        match st.store.lookup existingId with
        | some existing => jsOr existing.status "pending"
        | none => "pending"
      (.ok existingId status, st)
    | none =>
      let id := sha256hex key
      (.ok id "pending",
       { store := (id, { id, city, sector, status := "pending", result := none
                         error := none, suggestedCities := [] }) :: st.store
         inputKeyMap := (key, id) :: st.inputKeyMap })

end Server

/-- Recursive loop of the spec-side FNV-1a reference function. -/
def fnv1a32Go : ℕ → List Char → ℕ
  | h, [] => h
  | h, c :: cs => fnv1a32Go (((h.xor c.toNat) * 16777619) % (2 ^ 32)) cs

/-- The 32-bit FNV-1a hash as the specification describes it (offset basis
2166136261; per character, xor then multiply by the prime 16777619, on 32
bits).  This is the spec-side reference function the seed claims compare
the implementations against. -/
def fnv1a32 (s : String) : ℕ :=
  fnv1a32Go 2166136261 s.data

/-- Invariant of the items the client map step emits: non-empty name and
category, and a distance already clamped and rounded to two decimals.  The
client map step is the identity on such items. -/
def ClientCoerced (it : InfraItem) : Prop :=
  it.name ≠ "" ∧ it.category ≠ "" ∧ 0 ≤ it.distance ∧ round2 it.distance = it.distance

/-- Invariant of the items the server map step emits: trimmed name, category
in the closed vocabulary, distance clamped and rounded to two decimals.  The
server map step is the identity on such items. -/
def ServerCoerced (it : InfraItem) : Prop :=
  jsTrim it.name = it.name ∧ Server.normalizeCategory it.category = it.category ∧
  0 ≤ it.distance ∧ round2 it.distance = it.distance

/-! ### Rounding and clamping lemmas -/

theorem jsRound_eq_round (x : ℚ) : jsRound x = round x := by
  rw [round_eq]; rfl

theorem jsRound_intCast (n : ℤ) : jsRound ((n : ℤ) : ℚ) = n := by
  rw [jsRound_eq_round, round_intCast]

theorem jsRound_mono {x y : ℚ} (h : x ≤ y) : jsRound x ≤ jsRound y := by
  rw [jsRound_eq_round, jsRound_eq_round, round_eq, round_eq]
  exact Int.floor_le_floor (by linarith)

theorem round1_mono {x y : ℚ} (h : x ≤ y) : round1 x ≤ round1 y := by
  unfold round1
  have h1 : jsRound (x * 10) ≤ jsRound (y * 10) := jsRound_mono (by linarith)
  gcongr

theorem round1_intCast (n : ℤ) : round1 ((n : ℤ) : ℚ) = n := by
  unfold round1
  rw [show ((n : ℤ) : ℚ) * 10 = (((n * 10 : ℤ) : ℤ) : ℚ) by push_cast; ring, jsRound_intCast]
  push_cast; ring

theorem round1_zero : round1 0 = 0 := by
  simpa using round1_intCast 0

theorem round1_idem (x : ℚ) : round1 (round1 x) = round1 x := by
  conv_lhs => rw [round1]
  rw [show round1 x * 10 = ((jsRound (x * 10) : ℤ) : ℚ) by rw [round1]; ring, jsRound_intCast]
  rw [round1]

theorem round2_mono {x y : ℚ} (h : x ≤ y) : round2 x ≤ round2 y := by
  unfold round2
  have h1 : jsRound (x * 100) ≤ jsRound (y * 100) := jsRound_mono (by linarith)
  gcongr

theorem round2_intCast (n : ℤ) : round2 ((n : ℤ) : ℚ) = n := by
  unfold round2
  rw [show ((n : ℤ) : ℚ) * 100 = (((n * 100 : ℤ) : ℤ) : ℚ) by push_cast; ring, jsRound_intCast]
  push_cast; ring

theorem round2_zero : round2 0 = 0 := by
  simpa using round2_intCast 0

theorem round2_idem (x : ℚ) : round2 (round2 x) = round2 x := by
  conv_lhs => rw [round2]
  rw [show round2 x * 100 = ((jsRound (x * 100) : ℤ) : ℚ) by rw [round2]; ring, jsRound_intCast]
  rw [round2]

theorem round2_nonneg {x : ℚ} (h : 0 ≤ x) : 0 ≤ round2 x := by
  simpa [round2_zero] using round2_mono h

theorem clampScore_nonneg (x : ℚ) : 0 ≤ clampScore x :=
  le_max_left 0 _

theorem clampScore_le_100 (x : ℚ) : clampScore x ≤ 100 :=
  max_le (by norm_num) (min_le_left 100 x)

theorem clampScore_eq_self {x : ℚ} (h0 : 0 ≤ x) (h100 : x ≤ 100) : clampScore x = x := by
  unfold clampScore
  rw [min_eq_right h100, max_eq_right h0]

theorem subScore_nonneg (v : Option ℚ) : 0 ≤ subScore v := by
  unfold subScore
  calc (0 : ℚ) = round1 0 := round1_zero.symm
    _ ≤ _ := round1_mono (clampScore_nonneg _)

theorem subScore_le_100 (v : Option ℚ) : subScore v ≤ 100 := by
  unfold subScore
  calc round1 (clampScore (v.getD 0)) ≤ round1 100 := round1_mono (clampScore_le_100 _)
    _ = 100 := by simpa using round1_intCast 100

theorem subScore_idem (v : Option ℚ) : subScore (some (subScore v)) = subScore v := by
  conv_lhs => rw [subScore]
  rw [show (some (subScore v)).getD 0 = subScore v from rfl,
    clampScore_eq_self (subScore_nonneg v) (subScore_le_100 v)]
  conv_lhs => rw [subScore]
  rw [round1_idem, ← subScore]

/-! ### Lemmas about the JavaScript string helpers -/

theorem jsOr_of_ne {a : String} (h : a ≠ "") (b : String) : jsOr a b = a :=
  if_neg h

theorem jsOr_ne_empty {b : String} (hb : b ≠ "") (a : String) : jsOr a b ≠ "" := by
  unfold jsOr
  split_ifs with h
  · exact hb
  · exact h

theorem jsOr_absorb (a b : String) : jsOr (jsOr a b) b = jsOr a b := by
  unfold jsOr
  split_ifs <;> simp_all

theorem data_jsToLower (s : String) : (jsToLower s).data = s.data.map jsLowerChar := rfl

theorem jsToLower_eq_empty_iff {s : String} : jsToLower s = "" ↔ s = "" := by
  constructor
  · intro h
    have hd : s.data.map jsLowerChar = [] := congrArg String.data h
    exact String.ext (List.map_eq_nil_iff.mp hd)
  · intro h; rw [h]; rfl

theorem jsToLower_append (a b : String) : jsToLower (a ++ b) = jsToLower a ++ jsToLower b := by
  apply String.ext
  simp [data_jsToLower, String.data_append]

theorem append_ne_empty_of_right {t : String} (ht : t ≠ "") (s : String) : s ++ t ≠ "" := by
  intro h
  apply ht
  have hd : s.data ++ t.data = [] := by
    simpa [String.data_append] using congrArg String.data h
  exact String.ext (List.append_eq_nil.mp hd).2

theorem dropWhile_prefix_self {p : Char → Bool} {y z : List Char}
    (hz : z <+: y) (hy : y.dropWhile p = y) : z.dropWhile p = z := by
  cases z with
  | nil => rfl
  | cons a t =>
    obtain ⟨rest, hrest⟩ := hz
    have hnp : p a = false := by
      by_contra hp
      rw [Bool.not_eq_false] at hp
      rw [← hrest, List.cons_append, List.dropWhile_cons, if_pos hp] at hy
      have hle : ((t ++ rest).dropWhile p).length ≤ (t ++ rest).length :=
        (List.dropWhile_suffix p).sublist.length_le
      rw [hy] at hle
      simp only [List.length_cons] at hle
      omega
    rw [List.dropWhile_cons, if_neg (by simp [hnp])]

theorem jsTrim_data (s : String) :
    (jsTrim s).data = dropTrail isJsWS (s.data.dropWhile isJsWS) := rfl

theorem dropTrail_prefix_self (p : Char → Bool) (l : List Char) : dropTrail p l <+: l := by
  unfold dropTrail
  have h := (List.dropWhile_suffix (l := l.reverse) p)
  obtain ⟨u, hu⟩ := h
  refine ⟨u.reverse, ?_⟩
  have := congrArg List.reverse hu
  simpa [List.reverse_append] using this

theorem dropTrail_idem (p : Char → Bool) (l : List Char) :
    dropTrail p (dropTrail p l) = dropTrail p l := by
  unfold dropTrail
  rw [List.reverse_reverse, List.dropWhile_idempotent]

theorem jsTrim_idem (s : String) : jsTrim (jsTrim s) = jsTrim s := by
  apply String.ext
  have h1 : ((jsTrim s).data).dropWhile isJsWS = (jsTrim s).data := by
    rw [jsTrim_data]
    exact dropWhile_prefix_self (dropTrail_prefix_self _ _) (List.dropWhile_idempotent _ _)
  show (jsTrim (jsTrim s)).data = (jsTrim s).data
  rw [jsTrim_data (jsTrim s), h1, jsTrim_data, dropTrail_idem]

/-! ### Generic list lemmas -/

theorem map_eq_self_of {α : Type} {f : α → α} {l : List α} (h : ∀ x ∈ l, f x = x) :
    l.map f = l := by
  induction l with
  | nil => rfl
  | cons a l ih =>
    rw [List.map_cons, h a (by simp), ih (fun x hx => h x (by simp [hx]))]

theorem length_filter_pair {α : Type} (p : α → Bool) (l : List α) :
    (l.filter p).length + (l.filter (fun a => !p a)).length = l.length := by
  induction l with
  | nil => rfl
  | cons a l ih => by_cases h : p a <;> simp [List.filter_cons, h] <;> omega

theorem nodup_subset_length {α : Type} [DecidableEq α] {N M : List α}
    (hn : N.Nodup) (hsub : N ⊆ M) : N.length ≤ M.length := by
  calc N.length = N.toFinset.card := (List.toFinset_card_of_nodup hn).symm
    _ ≤ M.toFinset.card := Finset.card_le_card (by
        intro x hx
        simp only [List.mem_toFinset] at *
        exact hsub hx)
    _ ≤ M.length := M.toFinset_card_le

/-! ### Suffix-based distinctness of the backfill template names -/

theorem append_ne_of_last4 {a b s t : List Char} (hs : 4 ≤ s.length) (ht : 4 ≤ t.length)
    (hne : s.reverse.take 4 ≠ t.reverse.take 4) : a ++ s ≠ b ++ t := by
  intro h
  apply hne
  have h' := congrArg (fun l => (List.reverse l).take 4) h
  simp only [List.reverse_append] at h'
  rw [List.take_append_of_le_length (by simpa using hs),
      List.take_append_of_le_length (by simpa using ht)] at h'
  exact h'

theorem lowered_ne_of_suffix (x y s t : String) (hs : 4 ≤ s.data.length)
    (ht : 4 ≤ t.data.length)
    (hne : (s.data.map jsLowerChar).reverse.take 4 ≠ (t.data.map jsLowerChar).reverse.take 4) :
    jsToLower (x ++ s) ≠ jsToLower (y ++ t) := by
  intro h
  have hd := congrArg String.data h
  rw [data_jsToLower, data_jsToLower, String.data_append, String.data_append,
      List.map_append, List.map_append] at hd
  exact append_ne_of_last4 (by simpa using hs) (by simpa using ht) hne hd

/-! ### Lemmas about the client backfill loop -/

namespace Client

/-- The five fallback template names are pairwise distinct after lower-casing,
for every city and sector: their last four characters already differ. -/
theorem fallbacks_names_pairwise (city sector : String) :
    (fallbacks city sector).Pairwise
      (fun a b => jsToLower a.name ≠ jsToLower b.name) := by
  unfold fallbacks
  refine List.Pairwise.cons ?_ (List.Pairwise.cons ?_ (List.Pairwise.cons ?_
    (List.Pairwise.cons ?_ (List.pairwise_singleton _ _)))) <;>
    intro b hb <;>
    simp only [List.mem_cons, List.mem_singleton, List.not_mem_nil, or_false] at hb
  · rcases hb with rfl | rfl | rfl | rfl
    · exact lowered_ne_of_suffix sector city " Metro Station" " Multi-Speciality Hospital"
        (by decide) (by decide) (by decide)
    · exact lowered_ne_of_suffix sector sector " Metro Station" " Public School"
        (by decide) (by decide) (by decide)
    · exact lowered_ne_of_suffix sector city " Metro Station" " Central Mall"
        (by decide) (by decide) (by decide)
    · exact lowered_ne_of_suffix sector city " Metro Station" " Tech Park"
        (by decide) (by decide) (by decide)
  · rcases hb with rfl | rfl | rfl
    · exact lowered_ne_of_suffix city sector " Multi-Speciality Hospital" " Public School"
        (by decide) (by decide) (by decide)
    · exact lowered_ne_of_suffix city city " Multi-Speciality Hospital" " Central Mall"
        (by decide) (by decide) (by decide)
    · exact lowered_ne_of_suffix city city " Multi-Speciality Hospital" " Tech Park"
        (by decide) (by decide) (by decide)
  · rcases hb with rfl | rfl
    · exact lowered_ne_of_suffix sector city " Public School" " Central Mall"
        (by decide) (by decide) (by decide)
    · exact lowered_ne_of_suffix sector city " Public School" " Tech Park"
        (by decide) (by decide) (by decide)
  · rcases hb with rfl
    exact lowered_ne_of_suffix city city " Central Mall" " Tech Park"
      (by decide) (by decide) (by decide)

theorem ensureGo_of_five {fbs : List InfraItem} {items : List InfraItem} {seen : List String}
    (h : 5 ≤ items.length) : ensureGo fbs items seen = items := by
  cases fbs with
  | nil => rfl
  | cons fb rest =>
    rw [ensureGo, if_pos (by simpa [MIN_INFRASTRUCTURE_POINTS] using h)]

theorem ensureGo_mem {fbs items : List InfraItem} {seen : List String} :
    ∀ x ∈ ensureGo fbs items seen, x ∈ items ∨ x ∈ fbs := by
  induction fbs generalizing items seen with
  | nil => intro x hx; exact Or.inl hx
  | cons fb rest ih =>
    intro x hx
    rw [ensureGo] at hx
    split_ifs at hx with h5 hmem
    · exact Or.inl hx
    · rcases ih x hx with h | h
      · exact Or.inl h
      · exact Or.inr (by simp [h])
    · rcases ih x hx with h | h
      · rcases List.mem_append.mp h with h' | h'
        · exact Or.inl h'
        · exact Or.inr (by simp_all)
      · exact Or.inr (by simp [h])

theorem ensureGo_length_le {fbs items : List InfraItem} {seen : List String} :
    (ensureGo fbs items seen).length ≤ max items.length 5 := by
  induction fbs generalizing items seen with
  | nil => exact le_max_left _ _
  | cons fb rest ih =>
    rw [ensureGo]
    split_ifs with h5 hmem
    · exact le_max_left _ _
    · exact ih
    · refine le_trans ih ?_
      simp only [List.length_append, List.length_singleton]
      simp only [MIN_INFRASTRUCTURE_POINTS, not_le] at h5
      omega

theorem ensureGo_ge (fbs : List InfraItem) (items : List InfraItem) (seen : List String)
    (hpw : fbs.Pairwise (fun a b => jsToLower a.name ≠ jsToLower b.name))
    (hseen : ∀ x, x ∈ seen ↔ x ∈ items.map (fun it => jsToLower it.name)) :
    min 5 (items.length +
        (fbs.filter (fun fb => !(decide (jsToLower fb.name ∈ seen)))).length)
      ≤ (ensureGo fbs items seen).length := by
  induction fbs generalizing items seen with
  | nil =>
    simp only [ensureGo, List.filter_nil, List.length_nil, Nat.add_zero]
    omega
  | cons fb rest ih =>
    rw [ensureGo]
    split_ifs with h5 hmem
    · have h5' : 5 ≤ items.length := by simpa [MIN_INFRASTRUCTURE_POINTS] using h5
      exact le_trans (min_le_left _ _) h5'
    · rw [List.filter_cons_of_neg (by simpa using hmem)]
      exact ih items seen hpw.of_cons hseen
    · rw [List.filter_cons_of_pos (by simpa using hmem)]
      have hseen' : ∀ x, x ∈ jsToLower fb.name :: seen ↔
          x ∈ (items ++ [fb]).map (fun it => jsToLower it.name) := by
        intro x
        simp only [List.mem_cons, List.map_append, List.mem_append, hseen x]
        simp [or_comm]
      have hfc : rest.filter
            (fun fb' => !(decide (jsToLower fb'.name ∈ jsToLower fb.name :: seen)))
          = rest.filter (fun fb' => !(decide (jsToLower fb'.name ∈ seen))) := by
        refine List.filter_congr ?_
        intro a ha
        have hne : jsToLower fb.name ≠ jsToLower a.name :=
          List.rel_of_pairwise_cons hpw ha
        simp [List.mem_cons, hne.symm]
      have := ih (items ++ [fb]) (jsToLower fb.name :: seen) hpw.of_cons hseen'
      rw [hfc] at this
      simp only [List.length_append, List.length_singleton, List.length_cons] at this ⊢
      omega

theorem ensureGo_nodup (fbs : List InfraItem) (items : List InfraItem) (seen : List String)
    (hseen : ∀ x, x ∈ seen ↔ x ∈ items.map (fun it => jsToLower it.name))
    (hnd : (items.map (fun it => jsToLower it.name)).Nodup) :
    ((ensureGo fbs items seen).map (fun it => jsToLower it.name)).Nodup := by
  induction fbs generalizing items seen with
  | nil => exact hnd
  | cons fb rest ih =>
    rw [ensureGo]
    split_ifs with h5 hmem
    · exact hnd
    · exact ih items seen hseen hnd
    · have hfb : jsToLower fb.name ∉ items.map (fun it => jsToLower it.name) :=
        fun h => hmem ((hseen _).mpr h)
      refine ih (items ++ [fb]) (jsToLower fb.name :: seen) ?_ ?_
      · intro x
        simp only [List.mem_cons, List.map_append, List.mem_append, hseen x]
        simp [or_comm]
      · simp only [List.map_append, List.map_cons, List.map_nil]
        simp [List.nodup_append, hnd, hfb]

/-- The backfilled list always has at least five entries: the five template
names are pairwise distinct, so at most `items.length` of them can collide
with the seen set. -/
theorem ensureMin_length_ge (input : List InfraItem) (city sector : String) :
    5 ≤ (ensureMinimumInfrastructure input city sector).length := by
  unfold ensureMinimumInfrastructure
  have hge := ensureGo_ge (fallbacks city sector) input
    (input.map (fun it => jsToLower it.name))
    (fallbacks_names_pairwise city sector) (fun x => Iff.rfl)
  have hpair := length_filter_pair
    (fun fb : InfraItem =>
      decide (jsToLower fb.name ∈ input.map (fun it => jsToLower it.name)))
    (fallbacks city sector)
  have hnd : (((fallbacks city sector).filter
      (fun fb : InfraItem =>
        decide (jsToLower fb.name ∈ input.map (fun it => jsToLower it.name)))).map
      (fun it => jsToLower it.name)).Nodup := by
    exact (List.pairwise_map).2 (List.Pairwise.sublist (List.filter_sublist _)
      (fallbacks_names_pairwise city sector))
  have hsub : (((fallbacks city sector).filter
      (fun fb : InfraItem =>
        decide (jsToLower fb.name ∈ input.map (fun it => jsToLower it.name)))).map
      (fun it => jsToLower it.name)) ⊆ input.map (fun it => jsToLower it.name) := by
    intro x hx
    obtain ⟨fb, hfb, rfl⟩ := List.mem_map.mp hx
    exact of_decide_eq_true (List.mem_filter.mp hfb).2
  have hle := nodup_subset_length hnd hsub
  simp only [List.length_map] at hle
  have h5 : (fallbacks city sector).length = 5 := by simp [fallbacks]
  rw [h5] at hpair
  refine le_trans ?_ hge
  omega

end Client

/-! ### Projection lemmas for the two normalizers -/

namespace Client

theorem normalizeAnalysis_city (raw : RawAnalysis) (city sector : String) :
    (normalizeAnalysis raw city sector).city
      = jsOr raw.city (jsOr city "Unknown Indian City") := rfl

theorem normalizeAnalysis_sector (raw : RawAnalysis) (city sector : String) :
    (normalizeAnalysis raw city sector).sector
      = jsOr raw.sector (jsOr sector "General District") := rfl

theorem normalizeAnalysis_breakdown (raw : RawAnalysis) (city sector : String) :
    (normalizeAnalysis raw city sector).breakdown
      = { connectivity := subScore raw.breakdown.connectivity
          healthcare := subScore raw.breakdown.healthcare
          education := subScore raw.breakdown.education
          retail := subScore raw.breakdown.retail
          employment := subScore raw.breakdown.employment } := rfl

theorem normalizeAnalysis_overallScore (raw : RawAnalysis) (city sector : String) :
    (normalizeAnalysis raw city sector).overallScore
      = round1 (clampScore
          ((normalizeAnalysis raw city sector).breakdown.connectivity * 0.25 +
           (normalizeAnalysis raw city sector).breakdown.healthcare * 0.15 +
           (normalizeAnalysis raw city sector).breakdown.education * 0.15 +
           (normalizeAnalysis raw city sector).breakdown.retail * 0.15 +
           (normalizeAnalysis raw city sector).breakdown.employment * 0.15)) := rfl

theorem normalizeAnalysis_label (raw : RawAnalysis) (city sector : String) :
    (normalizeAnalysis raw city sector).label
      = computeLabel (normalizeAnalysis raw city sector).overallScore := rfl

theorem normalizeAnalysis_infrastructure (raw : RawAnalysis) (city sector : String) :
    (normalizeAnalysis raw city sector).infrastructure
      = ensureMinimumInfrastructure (preparedInfra raw)
          (jsOr city "City") (jsOr sector "Locality") := rfl

theorem normalizeAnalysis_summary (raw : RawAnalysis) (city sector : String) :
    (normalizeAnalysis raw city sector).summary
      = jsOr raw.summary
          "This Indian location demonstrates strong appreciation potential driven by connectivity, services, and employment access." := rfl

end Client

namespace Server

theorem normalizeAnalysis_city_srv (raw : RawAnalysis) (city sector : String) :
    (normalizeAnalysis raw city sector).city = jsOr raw.city city := rfl

theorem normalizeAnalysis_sector_srv (raw : RawAnalysis) (city sector : String) :
    (normalizeAnalysis raw city sector).sector = jsOr raw.sector sector := rfl

theorem normalizeAnalysis_breakdown_srv (raw : RawAnalysis) (city sector : String) :
    (normalizeAnalysis raw city sector).breakdown
      = { connectivity := subScore raw.breakdown.connectivity
          healthcare := subScore raw.breakdown.healthcare
          education := subScore raw.breakdown.education
          retail := subScore raw.breakdown.retail
          employment := subScore raw.breakdown.employment } := rfl

theorem normalizeAnalysis_overallScore_srv (raw : RawAnalysis) (city sector : String) :
    (normalizeAnalysis raw city sector).overallScore
      = round1 (clampScore
          ((normalizeAnalysis raw city sector).breakdown.connectivity * 0.25 +
           (normalizeAnalysis raw city sector).breakdown.healthcare * 0.15 +
           (normalizeAnalysis raw city sector).breakdown.education * 0.15 +
           (normalizeAnalysis raw city sector).breakdown.retail * 0.15 +
           (normalizeAnalysis raw city sector).breakdown.employment * 0.15)) := rfl

theorem normalizeAnalysis_label_srv (raw : RawAnalysis) (city sector : String) :
    (normalizeAnalysis raw city sector).label
      = computeLabel (normalizeAnalysis raw city sector).overallScore := rfl

theorem normalizeAnalysis_infrastructure_srv (raw : RawAnalysis) (city sector : String) :
    (normalizeAnalysis raw city sector).infrastructure = preparedInfra raw := rfl

theorem normalizeAnalysis_summary_srv (raw : RawAnalysis) (city sector : String) :
    (normalizeAnalysis raw city sector).summary
      = (if preparedInfra raw = [] then ACCURATE_LANDMARK_DATA_UNAVAILABLE
         else jsOr raw.summary
           "This Indian location demonstrates strong appreciation potential driven by connectivity, services, and employment access.") := rfl

end Server

/-! ### Coerced-item invariants and the infrastructure pipelines -/

theorem round2_max_idem (x : ℚ) : round2 (max 0 (round2 (max 0 x))) = round2 (max 0 x) := by
  rw [max_eq_right (round2_nonneg (le_max_left 0 x))]
  exact round2_idem _

namespace Client

theorem coerceItem_coerced (it : InfraItem) : ClientCoerced (coerceItem it) := by
  refine ⟨jsOr_ne_empty (by decide) _, jsOr_ne_empty (by decide) _, ?_, ?_⟩
  · exact round2_nonneg (le_max_left 0 _)
  · exact round2_idem _

theorem coerceItem_eq_self {it : InfraItem} (h : ClientCoerced it) : coerceItem it = it := by
  obtain ⟨hn, hc, hd0, hd2⟩ := h
  unfold coerceItem
  rw [jsOr_of_ne hn, jsOr_of_ne hc, max_eq_right hd0, hd2]

theorem fallbacks_coerced (city sector : String) :
    ∀ it ∈ fallbacks city sector, ClientCoerced it := by
  intro it hit
  simp only [fallbacks, List.mem_cons, List.mem_singleton, List.not_mem_nil, or_false] at hit
  rcases hit with rfl | rfl | rfl | rfl | rfl
  · refine ⟨append_ne_empty_of_right (by decide) _, ?_, ?_, ?_⟩
    · show ("Metro" : String) ≠ ""
      decide
    · show (0 : ℚ) ≤ 0.9
      decide
    · show round2 0.9 = 0.9
      decide
  · refine ⟨append_ne_empty_of_right (by decide) _, ?_, ?_, ?_⟩
    · show ("Hospital" : String) ≠ ""
      decide
    · show (0 : ℚ) ≤ 1.8
      decide
    · show round2 1.8 = 1.8
      decide
  · refine ⟨append_ne_empty_of_right (by decide) _, ?_, ?_, ?_⟩
    · show ("School" : String) ≠ ""
      decide
    · show (0 : ℚ) ≤ 1.4
      decide
    · show round2 1.4 = 1.4
      decide
  · refine ⟨append_ne_empty_of_right (by decide) _, ?_, ?_, ?_⟩
    · show ("Mall" : String) ≠ ""
      decide
    · show (0 : ℚ) ≤ 2.6
      decide
    · show round2 2.6 = 2.6
      decide
  · refine ⟨append_ne_empty_of_right (by decide) _, ?_, ?_, ?_⟩
    · show ("Office" : String) ≠ ""
      decide
    · show (0 : ℚ) ≤ 3.2
      decide
    · show round2 3.2 = 3.2
      decide

theorem preparedInfra_coerced (raw : RawAnalysis) :
    ∀ it ∈ preparedInfra raw, ClientCoerced it := by
  intro it hit
  unfold preparedInfra at hit
  have h1 : it ∈ List.insertionSort infraLE (raw.infrastructure.map coerceItem) :=
    (List.take_sublist _ _).mem hit
  have h2 : it ∈ raw.infrastructure.map coerceItem :=
    ((List.perm_insertionSort infraLE _).mem_iff).mp h1
  obtain ⟨x, _, rfl⟩ := List.mem_map.mp h2
  exact coerceItem_coerced x

theorem preparedInfra_sorted (raw : RawAnalysis) :
    List.Sorted infraLE (preparedInfra raw) :=
  List.Pairwise.sublist (List.take_sublist _ _)
    (List.sorted_insertionSort infraLE _)

theorem preparedInfra_length_le (raw : RawAnalysis) :
    (preparedInfra raw).length ≤ 8 := by
  unfold preparedInfra
  calc ((List.insertionSort infraLE (raw.infrastructure.map coerceItem)).take 8).length
      ≤ 8 := by rw [List.length_take]; exact min_le_left _ _

theorem infra_coerced (raw : RawAnalysis) (city sector : String) :
    ∀ it ∈ (normalizeAnalysis raw city sector).infrastructure, ClientCoerced it := by
  intro it hit
  rw [normalizeAnalysis_infrastructure] at hit
  rcases ensureGo_mem it hit with h | h
  · exact preparedInfra_coerced raw it h
  · exact fallbacks_coerced _ _ it h

theorem infra_length_le (raw : RawAnalysis) (city sector : String) :
    (normalizeAnalysis raw city sector).infrastructure.length ≤ 8 := by
  rw [normalizeAnalysis_infrastructure]
  have h1 := @ensureGo_length_le
    (fallbacks (jsOr city "City") (jsOr sector "Locality"))
    (preparedInfra raw)
    ((preparedInfra raw).map (fun it => jsToLower it.name))
  have h2 := preparedInfra_length_le raw
  unfold ensureMinimumInfrastructure
  omega

theorem infra_length_ge (raw : RawAnalysis) (city sector : String) :
    5 ≤ (normalizeAnalysis raw city sector).infrastructure.length := by
  rw [normalizeAnalysis_infrastructure]
  exact ensureMin_length_ge _ _ _

end Client

namespace Server

theorem normalizeCategory_cases (v : String) :
    normalizeCategory v = "Metro" ∨ normalizeCategory v = "Hospital" ∨
    normalizeCategory v = "School" ∨ normalizeCategory v = "Mall" ∨
    normalizeCategory v = "Park" ∨ normalizeCategory v = "Office" := by
  simp only [normalizeCategory]
  split_ifs <;> simp

theorem normalizeCategory_idem (v : String) :
    normalizeCategory (normalizeCategory v) = normalizeCategory v := by
  rcases normalizeCategory_cases v with h | h | h | h | h | h <;> rw [h] <;> decide

theorem coerceItem_coerced_srv (it : InfraItem) : ServerCoerced (coerceItem it) :=
  ⟨jsTrim_idem _, normalizeCategory_idem _, round2_nonneg (le_max_left 0 _), round2_idem _⟩

theorem coerceItem_eq_self_srv {it : InfraItem} (h : ServerCoerced it) : coerceItem it = it := by
  obtain ⟨hn, hc, hd0, hd2⟩ := h
  unfold coerceItem
  rw [hn, hc, max_eq_right hd0, hd2]

theorem preparedInfra_mem (raw : RawAnalysis) :
    ∀ it ∈ preparedInfra raw,
      it ∈ (raw.infrastructure.map coerceItem).filter keepItem := by
  intro it hit
  unfold preparedInfra at hit
  exact ((List.perm_insertionSort infraLE _).mem_iff).mp ((List.take_sublist _ _).mem hit)

theorem preparedInfra_coerced_srv (raw : RawAnalysis) :
    ∀ it ∈ preparedInfra raw, ServerCoerced it := by
  intro it hit
  have h2 := (List.mem_filter.mp (preparedInfra_mem raw it hit)).1
  obtain ⟨x, _, rfl⟩ := List.mem_map.mp h2
  exact coerceItem_coerced_srv x

theorem preparedInfra_keep (raw : RawAnalysis) :
    ∀ it ∈ preparedInfra raw, keepItem it = true := by
  intro it hit
  exact (List.mem_filter.mp (preparedInfra_mem raw it hit)).2

theorem preparedInfra_sorted_srv (raw : RawAnalysis) :
    List.Sorted infraLE (preparedInfra raw) :=
  List.Pairwise.sublist (List.take_sublist _ _)
    (List.sorted_insertionSort infraLE _)

theorem preparedInfra_length_le_srv (raw : RawAnalysis) :
    (preparedInfra raw).length ≤ 8 := by
  unfold preparedInfra
  rw [List.length_take]
  exact min_le_left _ _

/-- Re-normalizing the server normalizer's own infrastructure output is the
identity: every item is already coerced, kept by the filter, the list is
sorted, and it has at most eight entries. -/
theorem preparedInfra_toRaw (raw : RawAnalysis) (city sector : String) :
    preparedInfra (toRaw (normalizeAnalysis raw city sector)) = preparedInfra raw := by
  have hmap : (preparedInfra raw).map coerceItem = preparedInfra raw :=
    map_eq_self_of (fun it hit => coerceItem_eq_self_srv (preparedInfra_coerced_srv raw it hit))
  have hfil : (preparedInfra raw).filter keepItem = preparedInfra raw :=
    List.filter_eq_self.mpr (preparedInfra_keep raw)
  have hsort : List.insertionSort infraLE (preparedInfra raw) = preparedInfra raw :=
    (preparedInfra_sorted_srv raw).insertionSort_eq
  have htake : (preparedInfra raw).take 8 = preparedInfra raw :=
    List.take_of_length_le (preparedInfra_length_le_srv raw)
  show ((((toRaw (normalizeAnalysis raw city sector)).infrastructure.map
      coerceItem).filter keepItem).insertionSort infraLE).take 8 = preparedInfra raw
  have hinf : (toRaw (normalizeAnalysis raw city sector)).infrastructure
      = preparedInfra raw := rfl
  rw [hinf, hmap, hfil, hsort, htake]

end Server

/-! ### Idempotence of the two normalizers -/

theorem toRaw_city (a : Analysis) : (toRaw a).city = a.city := rfl

theorem toRaw_sector (a : Analysis) : (toRaw a).sector = a.sector := rfl

theorem toRaw_summary (a : Analysis) : (toRaw a).summary = a.summary := rfl

theorem toRaw_infrastructure (a : Analysis) : (toRaw a).infrastructure = a.infrastructure := rfl

namespace Server

/-- The server normalizer is idempotent: applied to its own output (with the
same city and sector) it reproduces that output exactly. -/
theorem normalizeAnalysis_toRaw_eq_srv (raw : RawAnalysis) (city sector : String) :
    normalizeAnalysis (toRaw (normalizeAnalysis raw city sector)) city sector
      = normalizeAnalysis raw city sector := by
  have hbd : (normalizeAnalysis (toRaw (normalizeAnalysis raw city sector)) city sector).breakdown
      = (normalizeAnalysis raw city sector).breakdown :=
    Breakdown.ext (subScore_idem _) (subScore_idem _) (subScore_idem _)
      (subScore_idem _) (subScore_idem _)
  have hover : (normalizeAnalysis (toRaw (normalizeAnalysis raw city sector)) city sector).overallScore
      = (normalizeAnalysis raw city sector).overallScore := by
    rw [normalizeAnalysis_overallScore_srv, hbd, ← normalizeAnalysis_overallScore_srv]
  have hcity : (normalizeAnalysis (toRaw (normalizeAnalysis raw city sector)) city sector).city
      = (normalizeAnalysis raw city sector).city := by
    rw [normalizeAnalysis_city_srv, toRaw_city, normalizeAnalysis_city_srv, jsOr_absorb,
      ← normalizeAnalysis_city_srv raw city sector]
  have hsector : (normalizeAnalysis (toRaw (normalizeAnalysis raw city sector)) city sector).sector
      = (normalizeAnalysis raw city sector).sector := by
    rw [normalizeAnalysis_sector_srv, toRaw_sector, normalizeAnalysis_sector_srv, jsOr_absorb,
      ← normalizeAnalysis_sector_srv raw city sector]
  have hlabel : (normalizeAnalysis (toRaw (normalizeAnalysis raw city sector)) city sector).label
      = (normalizeAnalysis raw city sector).label := by
    rw [normalizeAnalysis_label_srv, hover, ← normalizeAnalysis_label_srv]
  have hinfra : (normalizeAnalysis (toRaw (normalizeAnalysis raw city sector)) city sector).infrastructure
      = (normalizeAnalysis raw city sector).infrastructure := by
    rw [normalizeAnalysis_infrastructure_srv, normalizeAnalysis_infrastructure_srv,
      preparedInfra_toRaw]
  have hsummary : (normalizeAnalysis (toRaw (normalizeAnalysis raw city sector)) city sector).summary
      = (normalizeAnalysis raw city sector).summary := by
    rw [normalizeAnalysis_summary_srv, normalizeAnalysis_summary_srv, preparedInfra_toRaw]
    by_cases h : preparedInfra raw = []
    · rw [if_pos h, if_pos h]
    · rw [if_neg h, if_neg h, toRaw_summary, normalizeAnalysis_summary_srv, if_neg h, jsOr_absorb]
  exact Analysis.ext hcity hsector hover hlabel hbd hinfra hsummary

/-- The server normalizer's infrastructure output is sorted and short. -/
theorem infra_sorted (raw : RawAnalysis) (city sector : String) :
    List.Sorted infraLE (normalizeAnalysis raw city sector).infrastructure := by
  rw [normalizeAnalysis_infrastructure_srv]
  exact preparedInfra_sorted_srv raw

theorem infra_length_le_srv (raw : RawAnalysis) (city sector : String) :
    (normalizeAnalysis raw city sector).infrastructure.length ≤ 8 := by
  rw [normalizeAnalysis_infrastructure_srv]
  exact preparedInfra_length_le_srv raw

end Server

namespace Client

/-- Applying the client normalizer to its own output re-sorts the
infrastructure list and changes nothing else: the backfill appended entries
after sorting, so the second pass sorts the whole list again. -/
theorem normalizeAnalysis_toRaw_eq (raw : RawAnalysis) (city sector : String) :
    normalizeAnalysis (toRaw (normalizeAnalysis raw city sector)) city sector
      = { normalizeAnalysis raw city sector with
          infrastructure :=
            List.insertionSort infraLE (normalizeAnalysis raw city sector).infrastructure } := by
  have hbd : (normalizeAnalysis (toRaw (normalizeAnalysis raw city sector)) city sector).breakdown
      = (normalizeAnalysis raw city sector).breakdown :=
    Breakdown.ext (subScore_idem _) (subScore_idem _) (subScore_idem _)
      (subScore_idem _) (subScore_idem _)
  have hover : (normalizeAnalysis (toRaw (normalizeAnalysis raw city sector)) city sector).overallScore
      = (normalizeAnalysis raw city sector).overallScore := by
    rw [normalizeAnalysis_overallScore, hbd, ← normalizeAnalysis_overallScore]
  have hcity : (normalizeAnalysis (toRaw (normalizeAnalysis raw city sector)) city sector).city
      = (normalizeAnalysis raw city sector).city := by
    rw [normalizeAnalysis_city, toRaw_city]
    exact jsOr_of_ne
      (by rw [normalizeAnalysis_city]
          exact jsOr_ne_empty (jsOr_ne_empty (by decide) city) raw.city) _
  have hsector : (normalizeAnalysis (toRaw (normalizeAnalysis raw city sector)) city sector).sector
      = (normalizeAnalysis raw city sector).sector := by
    rw [normalizeAnalysis_sector, toRaw_sector]
    exact jsOr_of_ne
      (by rw [normalizeAnalysis_sector]
          exact jsOr_ne_empty (jsOr_ne_empty (by decide) sector) raw.sector) _
  have hlabel : (normalizeAnalysis (toRaw (normalizeAnalysis raw city sector)) city sector).label
      = (normalizeAnalysis raw city sector).label := by
    rw [normalizeAnalysis_label, hover, ← normalizeAnalysis_label]
  have hsummary : (normalizeAnalysis (toRaw (normalizeAnalysis raw city sector)) city sector).summary
      = (normalizeAnalysis raw city sector).summary := by
    rw [normalizeAnalysis_summary, toRaw_summary]
    exact jsOr_of_ne
      (by rw [normalizeAnalysis_summary]
          exact jsOr_ne_empty (by decide) raw.summary) _
  have hmap : (normalizeAnalysis raw city sector).infrastructure.map coerceItem
      = (normalizeAnalysis raw city sector).infrastructure :=
    map_eq_self_of (fun it hit => coerceItem_eq_self (infra_coerced raw city sector it hit))
  have hlen8 : (List.insertionSort infraLE
      (normalizeAnalysis raw city sector).infrastructure).length ≤ 8 := by
    rw [List.length_insertionSort]
    exact infra_length_le raw city sector
  have hlen5 : 5 ≤ (List.insertionSort infraLE
      (normalizeAnalysis raw city sector).infrastructure).length := by
    rw [List.length_insertionSort]
    exact infra_length_ge raw city sector
  have hprep : preparedInfra (toRaw (normalizeAnalysis raw city sector))
      = List.insertionSort infraLE (normalizeAnalysis raw city sector).infrastructure := by
    unfold preparedInfra
    rw [toRaw_infrastructure, hmap]
    exact List.take_of_length_le hlen8
  have hinfra : (normalizeAnalysis (toRaw (normalizeAnalysis raw city sector)) city sector).infrastructure
      = List.insertionSort infraLE (normalizeAnalysis raw city sector).infrastructure := by
    rw [normalizeAnalysis_infrastructure, hprep]
    unfold ensureMinimumInfrastructure
    exact ensureGo_of_five hlen5
  exact Analysis.ext hcity hsector hover hlabel hbd hinfra hsummary

/-- When the client normalizer's first output happens to be sorted (in
particular whenever no backfill entry was appended), the normalizer is
idempotent on it. -/
theorem normalizeAnalysis_toRaw_eq_of_sorted (raw : RawAnalysis) (city sector : String)
    (h : List.Sorted infraLE (normalizeAnalysis raw city sector).infrastructure) :
    normalizeAnalysis (toRaw (normalizeAnalysis raw city sector)) city sector
      = normalizeAnalysis raw city sector := by
  rw [normalizeAnalysis_toRaw_eq, h.insertionSort_eq]

/-- With at least five raw infrastructure entries no backfill happens, so the
client output is the sorted, truncated pipeline result. -/
theorem infra_eq_prepared_of_ge_five (raw : RawAnalysis) (city sector : String)
    (h : 5 ≤ raw.infrastructure.length) :
    (normalizeAnalysis raw city sector).infrastructure = preparedInfra raw := by
  rw [normalizeAnalysis_infrastructure]
  unfold ensureMinimumInfrastructure
  refine ensureGo_of_five ?_
  unfold preparedInfra
  rw [List.length_take, List.length_insertionSort, List.length_map]
  omega

theorem infra_sorted_of_ge_five (raw : RawAnalysis) (city sector : String)
    (h : 5 ≤ raw.infrastructure.length) :
    List.Sorted infraLE (normalizeAnalysis raw city sector).infrastructure := by
  rw [infra_eq_prepared_of_ge_five raw city sector h]
  exact preparedInfra_sorted raw

end Client

/-! ### Score bounds and the label thresholds -/

theorem weighted_subScore_bounds (rb : RawBreakdown) :
    0 ≤ subScore rb.connectivity * 0.25 + subScore rb.healthcare * 0.15 +
        subScore rb.education * 0.15 + subScore rb.retail * 0.15 +
        subScore rb.employment * 0.15 ∧
    subScore rb.connectivity * 0.25 + subScore rb.healthcare * 0.15 +
        subScore rb.education * 0.15 + subScore rb.retail * 0.15 +
        subScore rb.employment * 0.15 ≤ 85 := by
  have h1 := subScore_nonneg rb.connectivity
  have h2 := subScore_nonneg rb.healthcare
  have h3 := subScore_nonneg rb.education
  have h4 := subScore_nonneg rb.retail
  have h5 := subScore_nonneg rb.employment
  have g1 := subScore_le_100 rb.connectivity
  have g2 := subScore_le_100 rb.healthcare
  have g3 := subScore_le_100 rb.education
  have g4 := subScore_le_100 rb.retail
  have g5 := subScore_le_100 rb.employment
  norm_num
  constructor <;> nlinarith

theorem round1_85 : round1 (85 : ℚ) = 85 := by
  have := round1_intCast 85
  simpa using this

theorem computeLabel_ne_excellent {s : ℚ} (h : s < 90) : computeLabel s ≠ "Excellent" := by
  unfold computeLabel
  rw [if_neg (by linarith)]
  split_ifs <;> decide

namespace Client

theorem overallScore_eq_weighted (raw : RawAnalysis) (city sector : String) :
    (normalizeAnalysis raw city sector).overallScore
      = round1 (0.25 * subScore raw.breakdown.connectivity +
                0.15 * subScore raw.breakdown.healthcare +
                0.15 * subScore raw.breakdown.education +
                0.15 * subScore raw.breakdown.retail +
                0.15 * subScore raw.breakdown.employment) := by
  rw [normalizeAnalysis_overallScore, normalizeAnalysis_breakdown]
  have hb := weighted_subScore_bounds raw.breakdown
  rw [clampScore_eq_self hb.1 (le_trans hb.2 (by norm_num))]
  congr 1
  ring

theorem overallScore_le_85 (raw : RawAnalysis) (city sector : String) :
    (normalizeAnalysis raw city sector).overallScore ≤ 85 := by
  rw [normalizeAnalysis_overallScore, normalizeAnalysis_breakdown]
  have hb := weighted_subScore_bounds raw.breakdown
  rw [clampScore_eq_self hb.1 (le_trans hb.2 (by norm_num))]
  calc round1 _ ≤ round1 85 := round1_mono hb.2
    _ = 85 := round1_85

end Client

namespace Server

theorem overallScore_eq_weighted_srv (raw : RawAnalysis) (city sector : String) :
    (normalizeAnalysis raw city sector).overallScore
      = round1 (0.25 * subScore raw.breakdown.connectivity +
                0.15 * subScore raw.breakdown.healthcare +
                0.15 * subScore raw.breakdown.education +
                0.15 * subScore raw.breakdown.retail +
                0.15 * subScore raw.breakdown.employment) := by
  rw [normalizeAnalysis_overallScore_srv, normalizeAnalysis_breakdown_srv]
  have hb := weighted_subScore_bounds raw.breakdown
  rw [clampScore_eq_self hb.1 (le_trans hb.2 (by norm_num))]
  congr 1
  ring

theorem overallScore_le_85_srv (raw : RawAnalysis) (city sector : String) :
    (normalizeAnalysis raw city sector).overallScore ≤ 85 := by
  rw [normalizeAnalysis_overallScore_srv, normalizeAnalysis_breakdown_srv]
  have hb := weighted_subScore_bounds raw.breakdown
  rw [clampScore_eq_self hb.1 (le_trans hb.2 (by norm_num))]
  calc round1 _ ≤ round1 85 := round1_mono hb.2
    _ = 85 := round1_85

end Server

/-! ### The FNV-1a loop and the two stableSeed implementations -/

theorem foldl_fnvStep_eq (l : List Char) :
    ∀ h : ℕ, l.foldl fnvStep h = fnv1a32Go h l := by
  induction l with
  | nil => intro h; rfl
  | cons c cs ih =>
    intro h
    rw [List.foldl_cons, fnv1a32Go, ih]
    rfl

theorem client_stableSeed_eq_fnv1a32 (s : String) : Client.stableSeed s = fnv1a32 s :=
  foldl_fnvStep_eq s.data 2166136261

theorem server_stableSeed_eq_fnv1a32_mod (s : String) :
    Server.stableSeed s = fnv1a32 s % 2147483647 := by
  unfold Server.stableSeed fnv1a32
  rw [foldl_fnvStep_eq]

/-! ### The Stage-1 gibberish filter -/

theorem client_gibberish_of_digitRun {s : String}
    (h : hasDigitRun (jsTrim s).data = true) : Client.isObviouslyGibberish s = true := by
  simp only [Client.isObviouslyGibberish]
  split_ifs <;> simp_all

theorem server_gibberish_of_digitRun {s : String}
    (h : hasDigitRun (jsTrim s).data = true) : Server.isObviouslyGibberish s = true := by
  simp only [Server.isObviouslyGibberish, Server.normalize]
  split_ifs <;> simp_all

/-! ### The claims -/

/-- C1: for every raw input record, both analysis normalizers compute
`overallScore` as the one-decimal rounding of 0.25·connectivity +
0.15·healthcare + 0.15·education + 0.15·retail + 0.15·employment over the
five sub-scores after clamping to [0,100] (missing treated as 0) and rounding
to one decimal (`subScore`), and an `overallScore` value present in the raw
record has no effect on the result. -/
theorem overallScore_weighted_formula_correct (raw : RawAnalysis) (city sector : String) :
    ((Client.normalizeAnalysis raw city sector).overallScore
      = round1 (0.25 * subScore raw.breakdown.connectivity +
                0.15 * subScore raw.breakdown.healthcare +
                0.15 * subScore raw.breakdown.education +
                0.15 * subScore raw.breakdown.retail +
                0.15 * subScore raw.breakdown.employment)) ∧
    ((Server.normalizeAnalysis raw city sector).overallScore
      = round1 (0.25 * subScore raw.breakdown.connectivity +
                0.15 * subScore raw.breakdown.healthcare +
                0.15 * subScore raw.breakdown.education +
                0.15 * subScore raw.breakdown.retail +
                0.15 * subScore raw.breakdown.employment)) ∧
    (∀ v : Option ℚ,
      Client.normalizeAnalysis { raw with overallScore := v } city sector
        = Client.normalizeAnalysis raw city sector) ∧
    (∀ v : Option ℚ,
      Server.normalizeAnalysis { raw with overallScore := v } city sector
        = Server.normalizeAnalysis raw city sector) := by
  refine ⟨Client.overallScore_eq_weighted raw city sector,
    Server.overallScore_eq_weighted_srv raw city sector, ?_, ?_⟩ <;>
      intro v <;> cases raw <;> rfl

/-- C10: for every raw input record the normalized `overallScore` is at most
85 — the weights sum to 0.85 over sub-scores capped at 100 — so the label
"Excellent" (which needs a score of at least 90) is never produced. -/
theorem overallScore_capped_no_excellent (raw : RawAnalysis) (city sector : String) :
    (Client.normalizeAnalysis raw city sector).overallScore ≤ 85 ∧
    (Client.normalizeAnalysis raw city sector).label ≠ "Excellent" ∧
    (Server.normalizeAnalysis raw city sector).overallScore ≤ 85 ∧
    (Server.normalizeAnalysis raw city sector).label ≠ "Excellent" := by
  refine ⟨Client.overallScore_le_85 raw city sector, ?_,
    Server.overallScore_le_85_srv raw city sector, ?_⟩
  · rw [Client.normalizeAnalysis_label]
    exact computeLabel_ne_excellent
      (lt_of_le_of_lt (Client.overallScore_le_85 raw city sector) (by norm_num))
  · rw [Server.normalizeAnalysis_label_srv]
    exact computeLabel_ne_excellent
      (lt_of_le_of_lt (Server.overallScore_le_85_srv raw city sector) (by norm_num))

/-- C3 counterexample: the client normalizer is not idempotent.  On an empty
raw record the backfill appends its five template entries after sorting (at
distances 0.9, 1.8, 1.4, 2.6, 3.2 — out of order), so a second application
re-sorts the infrastructure list and yields a different record. -/
theorem client_normalizer_not_idempotent :
    Client.normalizeAnalysis (toRaw (Client.normalizeAnalysis {} "A" "B")) "A" "B"
      ≠ Client.normalizeAnalysis {} "A" "B" := by
  decide

/-- C3 amended: the server normalizer is idempotent; the client normalizer
applied to its own output changes nothing except that the infrastructure list
is re-sorted, and in particular it is idempotent whenever its first output's
infrastructure list is sorted (e.g. whenever no backfill entry was appended
out of order). -/
theorem normalizer_idempotence_amended :
    (∀ (raw : RawAnalysis) (city sector : String),
      Server.normalizeAnalysis (toRaw (Server.normalizeAnalysis raw city sector)) city sector
        = Server.normalizeAnalysis raw city sector) ∧
    (∀ (raw : RawAnalysis) (city sector : String),
      Client.normalizeAnalysis (toRaw (Client.normalizeAnalysis raw city sector)) city sector
        = { Client.normalizeAnalysis raw city sector with
            infrastructure :=
              List.insertionSort infraLE
                (Client.normalizeAnalysis raw city sector).infrastructure }) ∧
    (∀ (raw : RawAnalysis) (city sector : String),
      List.Sorted infraLE (Client.normalizeAnalysis raw city sector).infrastructure →
      Client.normalizeAnalysis (toRaw (Client.normalizeAnalysis raw city sector)) city sector
        = Client.normalizeAnalysis raw city sector) :=
  ⟨Server.normalizeAnalysis_toRaw_eq_srv, Client.normalizeAnalysis_toRaw_eq,
    Client.normalizeAnalysis_toRaw_eq_of_sorted⟩

/-- Witness for the amended C3: a raw record with five already-sorted valid
items needs no backfill, its client output is sorted, and re-normalizing it
reproduces it. -/
theorem normalizer_idempotence_amended_witness :
    List.Sorted infraLE
      (Client.normalizeAnalysis
        { infrastructure := [⟨"A", "Metro", 1⟩, ⟨"B", "Metro", 2⟩, ⟨"C", "Metro", 3⟩,
                             ⟨"D", "Metro", 4⟩, ⟨"E", "Metro", 5⟩] } "A" "B").infrastructure ∧
    Client.normalizeAnalysis
        (toRaw (Client.normalizeAnalysis
          { infrastructure := [⟨"A", "Metro", 1⟩, ⟨"B", "Metro", 2⟩, ⟨"C", "Metro", 3⟩,
                               ⟨"D", "Metro", 4⟩, ⟨"E", "Metro", 5⟩] } "A" "B")) "A" "B"
      = Client.normalizeAnalysis
          { infrastructure := [⟨"A", "Metro", 1⟩, ⟨"B", "Metro", 2⟩, ⟨"C", "Metro", 3⟩,
                               ⟨"D", "Metro", 4⟩, ⟨"E", "Metro", 5⟩] } "A" "B" :=
  ⟨by decide,
    normalizer_idempotence_amended.2.2
      { infrastructure := [⟨"A", "Metro", 1⟩, ⟨"B", "Metro", 2⟩, ⟨"C", "Metro", 3⟩,
                           ⟨"D", "Metro", 4⟩, ⟨"E", "Metro", 5⟩] } "A" "B" (by decide)⟩

/-- C4 counterexample: on an empty raw record the client normalizer's output
violates the claimed sort order — the backfill appends entries at distances
0.9, 1.8, 1.4, 2.6, 3.2 after the sort — so the claim's conjunction fails. -/
theorem client_infrastructure_order_violated :
    ¬ ((Client.normalizeAnalysis {} "A" "B").infrastructure.length ≤ 8 ∧
       List.Sorted infraLE (Client.normalizeAnalysis {} "A" "B").infrastructure) := by
  decide

/-- C4 amended: both normalizers emit at most 8 infrastructure entries; the
server output is always sorted by ascending distance with name tie-break; the
client output is sorted whenever the raw list had at least five entries (so
that no backfill entry is appended after the sort). -/
theorem infrastructure_sorted_bounded_amended :
    (∀ (raw : RawAnalysis) (city sector : String),
      (Server.normalizeAnalysis raw city sector).infrastructure.length ≤ 8 ∧
      List.Sorted infraLE (Server.normalizeAnalysis raw city sector).infrastructure) ∧
    (∀ (raw : RawAnalysis) (city sector : String),
      (Client.normalizeAnalysis raw city sector).infrastructure.length ≤ 8 ∧
      (5 ≤ raw.infrastructure.length →
        List.Sorted infraLE (Client.normalizeAnalysis raw city sector).infrastructure)) :=
  ⟨fun raw city sector => ⟨Server.infra_length_le_srv raw city sector,
      Server.infra_sorted raw city sector⟩,
   fun raw city sector => ⟨Client.infra_length_le raw city sector,
      Client.infra_sorted_of_ge_five raw city sector⟩⟩

/-- Witness for the amended C4: with five raw items the client output is
sorted and within the size bound. -/
theorem infrastructure_sorted_bounded_amended_witness :
    5 ≤ (RawAnalysis.infrastructure
      { infrastructure := [⟨"A", "Metro", 1⟩, ⟨"B", "Metro", 2⟩, ⟨"C", "Metro", 3⟩,
                           ⟨"D", "Metro", 4⟩, ⟨"E", "Metro", 5⟩] }).length ∧
    List.Sorted infraLE
      (Client.normalizeAnalysis
        { infrastructure := [⟨"A", "Metro", 1⟩, ⟨"B", "Metro", 2⟩, ⟨"C", "Metro", 3⟩,
                             ⟨"D", "Metro", 4⟩, ⟨"E", "Metro", 5⟩] } "C" "D").infrastructure :=
  ⟨by decide,
    (infrastructure_sorted_bounded_amended.2
      { infrastructure := [⟨"A", "Metro", 1⟩, ⟨"B", "Metro", 2⟩, ⟨"C", "Metro", 3⟩,
                           ⟨"D", "Metro", 4⟩, ⟨"E", "Metro", 5⟩] } "C" "D").2 (by decide)⟩

/-- C5 counterexample: a raw list of exactly two valid items that share the
name "X" (case-insensitively) is backfilled to five entries, but the output
keeps the duplicate name, refuting the claimed no-duplicates property; the
fallback templates are not exhausted (three of five are used). -/
theorem client_backfill_duplicate_names :
    (RawAnalysis.infrastructure
      { infrastructure := [⟨"X", "Metro", 1⟩, ⟨"X", "School", 2⟩] }).length = 2 ∧
    5 ≤ (Client.normalizeAnalysis
      { infrastructure := [⟨"X", "Metro", 1⟩, ⟨"X", "School", 2⟩] } "A" "B").infrastructure.length ∧
    ¬ (((Client.normalizeAnalysis
      { infrastructure := [⟨"X", "Metro", 1⟩, ⟨"X", "School", 2⟩] } "A" "B").infrastructure.map
        (fun it => jsToLower it.name)).Nodup) := by
  refine ⟨by decide, by decide, by decide⟩

/-- C5 amended: the client normalizer always backfills its output to at least
five entries (the five template names are pairwise distinct for every city and
sector, and collisions are skipped), and the output names are duplicate-free
case-insensitively provided the coerced input names already were — duplicates
present in the input are preserved.  The server normalizer performs no
backfill at all: the same two-item input stays at two entries. -/
theorem backfill_minimum_amended :
    (∀ (raw : RawAnalysis) (city sector : String),
      5 ≤ (Client.normalizeAnalysis raw city sector).infrastructure.length) ∧
    (∀ (raw : RawAnalysis) (city sector : String),
      ((Client.preparedInfra raw).map (fun it => jsToLower it.name)).Nodup →
      (((Client.normalizeAnalysis raw city sector).infrastructure.map
        (fun it => jsToLower it.name)).Nodup)) ∧
    (Server.normalizeAnalysis
      { infrastructure := [⟨"X", "Metro", 1⟩, ⟨"X", "School", 2⟩] } "A" "B").infrastructure.length
      = 2 := by
  refine ⟨Client.infra_length_ge, ?_, by decide⟩
  intro raw city sector h
  rw [Client.normalizeAnalysis_infrastructure]
  unfold Client.ensureMinimumInfrastructure
  exact Client.ensureGo_nodup _ _ _ (fun x => Iff.rfl) h

/-- Witness for the amended C5: two distinct-name items are backfilled to five
entries with no case-insensitive duplicate names. -/
theorem backfill_minimum_amended_witness :
    ((Client.preparedInfra
        { infrastructure := [⟨"X", "Metro", 1⟩, ⟨"Y", "School", 2⟩] }).map
      (fun it => jsToLower it.name)).Nodup ∧
    (((Client.normalizeAnalysis
        { infrastructure := [⟨"X", "Metro", 1⟩, ⟨"Y", "School", 2⟩] } "A" "B").infrastructure.map
      (fun it => jsToLower it.name)).Nodup) :=
  ⟨by decide,
    backfill_minimum_amended.2.1
      { infrastructure := [⟨"X", "Metro", 1⟩, ⟨"Y", "School", 2⟩] } "A" "B" (by decide)⟩

/-- C6 counterexample: for the pair ("pune", "baner") the server's validation
seed differs from the 32-bit FNV-1a hash of "validate::pune::baner" — the
server reduces the hash modulo 2147483647 and the hash value 3334802429
exceeds that modulus. -/
theorem server_seed_not_fnv1a32 :
    Server.validateSeed (Server.getInputKey "pune" "baner")
      ≠ fnv1a32 ("validate::" ++ Server.getInputKey "pune" "baner") := by
  decide

/-- C6 amended: the client's three per-purpose sampling seeds equal the 32-bit
FNV-1a hash of "<purpose>::<key>" exactly; the server's equal that hash
reduced modulo 2147483647.  All seed functions are pure (total functions of
the key). -/
theorem seeds_fnv1a32_amended (city sector : String) :
    Client.validateSeed (Client.getCacheKey city sector)
      = fnv1a32 ("validate::" ++ Client.getCacheKey city sector) ∧
    Client.matchSeed (Client.getCacheKey city sector)
      = fnv1a32 ("match::" ++ Client.getCacheKey city sector) ∧
    Client.analysisSeed (Client.getCacheKey city sector)
      = fnv1a32 ("analysis::" ++ Client.getCacheKey city sector) ∧
    Server.validateSeed (Server.getInputKey city sector)
      = fnv1a32 ("validate::" ++ Server.getInputKey city sector) % 2147483647 ∧
    Server.matchSeed (Server.getInputKey city sector)
      = fnv1a32 ("match::" ++ Server.getInputKey city sector) % 2147483647 ∧
    Server.analysisSeed (Server.getInputKey city sector)
      = fnv1a32 ("analysis::" ++ Server.getInputKey city sector) % 2147483647 :=
  ⟨client_stableSeed_eq_fnv1a32 _, client_stableSeed_eq_fnv1a32 _,
    client_stableSeed_eq_fnv1a32 _, server_stableSeed_eq_fnv1a32_mod _,
    server_stableSeed_eq_fnv1a32_mod _, server_stableSeed_eq_fnv1a32_mod _⟩

/-- Helper for C9: when every candidate in front fails with a
model-not-found error and the final candidate also does, the loop surfaces
the final candidate's error, whatever error was accumulated before. -/
theorem genFallbackGo_all_not_found {R : Type} (gen : String → Except String R)
    (ms : List String) (m : String) (em : String)
    (hall : ∀ x ∈ ms, ∃ ex, gen x = .error ex ∧ Server.isModelNotFoundMsg ex = true)
    (hm : gen m = .error em) (hnf : Server.isModelNotFoundMsg em = true) :
    ∀ last : Option String, Server.genFallbackGo gen (ms ++ [m]) last = .error em := by
  induction ms with
  | nil =>
    intro last
    simp [Server.genFallbackGo, hm, hnf]
  | cons x xs ih =>
    intro last
    obtain ⟨ex, hx, hnfx⟩ := hall x (by simp)
    rw [List.cons_append, Server.genFallbackGo, hx]
    simp only [hnfx, if_true]
    exact ih (fun y hy => hall y (by simp [hy])) (some ex)

/-- C7 counterexample: with validation passing, an ambiguity-check failure
does not make the orchestrator proceed to analysis as if the input were
unambiguous — the outcome differs from the run where the ambiguity check
returns not-ambiguous, because the reply handler substitutes the deterministic
fallback analysis instead of the analyzed result. -/
theorem ambiguity_failure_not_fail_open :
    (Server.validateInput
      { ai := true, validateSvc := .ok ⟨true, "ok"⟩, ambiguitySvc := .error "boom",
        analyzeSvc := .ok {} } "Pune" "Baner"
      (Server.getInputKey "Pune" "Baner")).isValid = true ∧
    Server.replyCompute
        { ai := true, validateSvc := .ok ⟨true, "ok"⟩, ambiguitySvc := .error "boom",
          analyzeSvc := .ok {} } ⟨"Pune", "Baner"⟩
      ≠ Server.replyCompute
          { ai := true, validateSvc := .ok ⟨true, "ok"⟩,
            ambiguitySvc := .ok ⟨false, []⟩, analyzeSvc := .ok {} } ⟨"Pune", "Baner"⟩ :=
  ⟨by decide, by decide⟩

/-- C7 amended: when validation passes and the ambiguity check's external call
fails, the server orchestrator does not fail open: the exception escapes
`processRequest`, and the reply handler ends the request in the terminal state
`done` carrying the deterministic fallback analysis and the fixed error
message — the analysis stage is never reached.  The failure is still
recoverable and non-fatal (the caller gets a terminal record), but it does
determine the request's outcome. -/
theorem ambiguity_failure_terminal_fallback_amended (o : Server.Oracles)
    (item : Server.InputItem) (e : String)
    (hv : (Server.validateInput o item.city item.sector
      (Server.getInputKey item.city item.sector)).isValid = true)
    (hai : o.ai = true) (he : o.ambiguitySvc = .error e) :
    Server.processRequest o item = .error e ∧
    Server.replyCompute o item =
      { status := "done", result := some (Server.fallbackAnalysis item.city item.sector)
        error := some "Model unavailable. Returned fallback response."
        suggestedCities := [] } := by
  have h1 : Server.processRequest o item = .error e := by
    simp [Server.processRequest, Server.detectAmbiguity, hv, hai, he]
  refine ⟨h1, ?_⟩
  unfold Server.replyCompute
  rw [h1]

/-- Witness for the amended C7 at a concrete failing oracle. -/
theorem ambiguity_failure_terminal_fallback_amended_witness :
    Server.processRequest
        { ai := true, validateSvc := .ok ⟨true, "ok"⟩, ambiguitySvc := .error "boom",
          analyzeSvc := .ok {} } ⟨"Pune", "Baner"⟩ = .error "boom" ∧
    Server.replyCompute
        { ai := true, validateSvc := .ok ⟨true, "ok"⟩, ambiguitySvc := .error "boom",
          analyzeSvc := .ok {} } ⟨"Pune", "Baner"⟩ =
      { status := "done", result := some (Server.fallbackAnalysis "Pune" "Baner")
        error := some "Model unavailable. Returned fallback response."
        suggestedCities := [] } :=
  ambiguity_failure_terminal_fallback_amended
    { ai := true, validateSvc := .ok ⟨true, "ok"⟩, ambiguitySvc := .error "boom",
      analyzeSvc := .ok {} } ⟨"Pune", "Baner"⟩ "boom" (by decide) rfl rfl

/-- C8: an input that matches a Stage-1 local rule — in particular one whose
trimmed text contains a run of five or more digits, as "asdkjasdkj12345"
does — is rejected with the fixed "Invalid input" reason by both validators,
for every state of the external generation service (the oracle is universally
quantified, so the external call has no influence); the client validator
additionally requires the cache tiers to miss. -/
theorem gibberish_rejected_without_service :
    (∀ (o : Server.Oracles) (city sector key : String),
      Server.isObviouslyGibberish city = true ∨ Server.isObviouslyGibberish sector = true →
      Server.validateInput o city sector key
        = { isValid := false, reason := "Invalid input. Enter a valid city and locality." }) ∧
    (∀ (svc : Except String ValidationResult)
       (mem persist : List (String × ValidationResult)) (city sector : String),
      mem.lookup (Client.getCacheKey city sector) = none →
      persist.lookup (Client.getCacheKey city sector) = none →
      Client.isObviouslyGibberish city = true ∨ Client.isObviouslyGibberish sector = true →
      Client.validateLocationInput svc mem persist city sector
        = { isValid := false, reason := "Invalid input. Enter a valid city and locality." }) ∧
    (∀ s : String, hasDigitRun (jsTrim s).data = true →
      Client.isObviouslyGibberish s = true ∧ Server.isObviouslyGibberish s = true) ∧
    Client.isObviouslyGibberish "asdkjasdkj12345" = true ∧
    Server.isObviouslyGibberish "asdkjasdkj12345" = true := by
  refine ⟨?_, ?_,
    fun s h => ⟨client_gibberish_of_digitRun h, server_gibberish_of_digitRun h⟩,
    by decide, by decide⟩
  · intro o city sector key h
    unfold Server.validateInput
    rcases h with h | h <;> simp [h]
  · intro svc mem persist city sector hm hp h
    simp only [Client.validateLocationInput, hm, hp]
    rcases h with h | h <;> simp [h]

/-- Witness for C8 at the spec's concrete input "asdkjasdkj12345", with an
available (and approving) external service and empty caches: the verdict is
still invalid. -/
theorem gibberish_rejected_without_service_witness :
    Server.validateInput
        { ai := true, validateSvc := .ok ⟨true, "looks fine"⟩,
          ambiguitySvc := .ok ⟨false, []⟩, analyzeSvc := .ok {} }
        "asdkjasdkj12345" "Baner" "k"
      = { isValid := false, reason := "Invalid input. Enter a valid city and locality." } ∧
    Client.validateLocationInput (.ok ⟨true, "looks fine"⟩) [] [] "asdkjasdkj12345" "Baner"
      = { isValid := false, reason := "Invalid input. Enter a valid city and locality." } :=
  ⟨gibberish_rejected_without_service.1
      { ai := true, validateSvc := .ok ⟨true, "looks fine"⟩,
        ambiguitySvc := .ok ⟨false, []⟩, analyzeSvc := .ok {} }
      "asdkjasdkj12345" "Baner" "k" (Or.inl (by decide)),
   gibberish_rejected_without_service.2.1 (.ok ⟨true, "looks fine"⟩) [] []
      "asdkjasdkj12345" "Baner" rfl rfl (Or.inl (by decide))⟩

/-- C9: the generation adapter tries candidates in order: a success returns
that candidate's response; an error outside the model-not-found class is
surfaced immediately; a model-not-found error moves on to the next candidate
remembering the error; if every candidate fails with model-not-found the last
error is surfaced; and in the two-candidate scenario where A is not found and
B succeeds, B's result is returned and A's error is not surfaced. -/
theorem model_fallback_candidate_order :
    (∀ {R : Type} (gen : String → Except String R) (m : String) (rest : List String)
       (last : Option String) (r : R), gen m = .ok r →
       Server.genFallbackGo gen (m :: rest) last = .ok r) ∧
    (∀ {R : Type} (gen : String → Except String R) (m : String) (rest : List String)
       (last : Option String) (e : String), gen m = .error e →
       Server.isModelNotFoundMsg e = false →
       Server.genFallbackGo gen (m :: rest) last = .error e) ∧
    (∀ {R : Type} (gen : String → Except String R) (m : String) (rest : List String)
       (last : Option String) (e : String), gen m = .error e →
       Server.isModelNotFoundMsg e = true →
       Server.genFallbackGo gen (m :: rest) last = Server.genFallbackGo gen rest (some e)) ∧
    (∀ {R : Type} (gen : String → Except String R) (ms : List String) (m em : String),
       (∀ x ∈ ms, ∃ ex, gen x = .error ex ∧ Server.isModelNotFoundMsg ex = true) →
       gen m = .error em → Server.isModelNotFoundMsg em = true →
       Server.generateContentWithModelFallback gen (ms ++ [m]) = .error em) ∧
    (∀ {R : Type} (gen : String → Except String R) (a b ea : String) (r : R),
       gen a = .error ea → Server.isModelNotFoundMsg ea = true → gen b = .ok r →
       Server.generateContentWithModelFallback gen [a, b] = .ok r) := by
  refine ⟨?_, ?_, ?_, ?_, ?_⟩
  · intro R gen m rest last r h
    simp [Server.genFallbackGo, h]
  · intro R gen m rest last e h hnf
    simp [Server.genFallbackGo, h, hnf]
  · intro R gen m rest last e h hnf
    simp [Server.genFallbackGo, h, hnf]
  · intro R gen ms m em hall hm hnf
    exact genFallbackGo_all_not_found gen ms m em hall hm hnf none
  · intro R gen a b ea r ha hnf hb
    simp [Server.generateContentWithModelFallback, Server.genFallbackGo, ha, hnf, hb]

/-- Witness for C9: candidate "gemini-a" fails with a model-not-found error,
"gemini-b" succeeds, and the adapter returns B's response. -/
theorem model_fallback_candidate_order_witness :
    Server.generateContentWithModelFallback
        (fun m => if m = "gemini-a" then Except.error "model gemini-a not found"
                  else Except.ok (42 : ℕ))
        ["gemini-a", "gemini-b"] = Except.ok 42 :=
  model_fallback_candidate_order.2.2.2.2
    (fun m => if m = "gemini-a" then Except.error "model gemini-a not found"
              else Except.ok (42 : ℕ))
    "gemini-a" "gemini-b" "model gemini-a not found" 42 rfl (by decide) rfl

/-- Helper for C2: lower-casing reflects emptiness, so two inputs equal after
trim and lower-case are empty together. -/
theorem trim_ne_empty_of_lower_eq {a b : String}
    (h : jsToLower (jsTrim a) = jsToLower (jsTrim b)) (ha : jsTrim a ≠ "") :
    jsTrim b ≠ "" := by
  intro hb
  apply ha
  apply jsToLower_eq_empty_iff.mp
  rw [h, hb]
  decide

/-- Helper for C2: the key computed by the handler (which normalizes its
inputs before `getInputKey` trims them again) depends only on the trimmed,
lower-cased fields. -/
theorem getInputKey_normalize (c s : String) :
    Server.getInputKey (Server.normalize c) (Server.normalize s)
      = jsToLower (jsTrim c) ++ "::" ++ jsToLower (jsTrim s) := by
  unfold Server.getInputKey Server.normalize
  rw [jsTrim_idem, jsTrim_idem]

/-- C2: two submissions whose city and sector agree after trimming and
lower-casing receive the same id from the same store state, and resubmitting
an already-seen pair returns the existing id and leaves the state — hence the
store — unchanged (no second RequestRecord). -/
theorem submit_deterministic_dedup (sha256hex : String → String)
    (st : Server.ServerState) (c1 s1 c2 s2 : String)
    (hc : jsToLower (jsTrim c1) = jsToLower (jsTrim c2))
    (hs : jsToLower (jsTrim s1) = jsToLower (jsTrim s2))
    (hc1 : jsTrim c1 ≠ "") (hs1 : jsTrim s1 ≠ "") :
    (Server.submit sha256hex st c1 s1).1 = (Server.submit sha256hex st c2 s2).1 ∧
    ∃ id status1 status2 st1,
      Server.submit sha256hex st c1 s1 = (.ok id status1, st1) ∧
      Server.submit sha256hex st1 c2 s2 = (.ok id status2, st1) := by
  have hc2 : jsTrim c2 ≠ "" := trim_ne_empty_of_lower_eq hc hc1
  have hs2 : jsTrim s2 ≠ "" := trim_ne_empty_of_lower_eq hs hs1
  have hne1 : ¬(Server.normalize c1 = "" ∨ Server.normalize s1 = "") :=
    not_or.mpr ⟨hc1, hs1⟩
  have hne2 : ¬(Server.normalize c2 = "" ∨ Server.normalize s2 = "") :=
    not_or.mpr ⟨hc2, hs2⟩
  have hkey : Server.getInputKey (Server.normalize c2) (Server.normalize s2)
      = Server.getInputKey (Server.normalize c1) (Server.normalize s1) := by
    rw [getInputKey_normalize, getInputKey_normalize, hc, hs]
  cases hkv : st.inputKeyMap.lookup
      (Server.getInputKey (Server.normalize c1) (Server.normalize s1)) with
  | some existingId =>
    have e1 : Server.submit sha256hex st c1 s1 =
        (.ok existingId
          (match st.store.lookup existingId with
           | some existing => jsOr existing.status "pending"
           | none => "pending"), st) := by
      simp only [Server.submit]
      rw [if_neg hne1, hkv]
    have e2 : Server.submit sha256hex st c2 s2 =
        (.ok existingId
          (match st.store.lookup existingId with
           | some existing => jsOr existing.status "pending"
           | none => "pending"), st) := by
      simp only [Server.submit]
      rw [if_neg hne2, hkey, hkv]
    exact ⟨by rw [e1, e2], existingId, _, _, st, e1, e2⟩
  | none =>
    have e1 : Server.submit sha256hex st c1 s1 =
        (.ok (sha256hex (Server.getInputKey (Server.normalize c1) (Server.normalize s1)))
          "pending",
         { store := (sha256hex (Server.getInputKey (Server.normalize c1)
              (Server.normalize s1)),
            { id := sha256hex (Server.getInputKey (Server.normalize c1)
                (Server.normalize s1))
              city := Server.normalize c1, sector := Server.normalize s1
              status := "pending", result := none, error := none
              suggestedCities := [] }) :: st.store
           inputKeyMap := (Server.getInputKey (Server.normalize c1) (Server.normalize s1),
            sha256hex (Server.getInputKey (Server.normalize c1)
              (Server.normalize s1))) :: st.inputKeyMap }) := by
      simp only [Server.submit]
      rw [if_neg hne1, hkv]
    have e2 : Server.submit sha256hex
        { store := (sha256hex (Server.getInputKey (Server.normalize c1)
              (Server.normalize s1)),
            { id := sha256hex (Server.getInputKey (Server.normalize c1)
                (Server.normalize s1))
              city := Server.normalize c1, sector := Server.normalize s1
              status := "pending", result := none, error := none
              suggestedCities := [] }) :: st.store
          inputKeyMap := (Server.getInputKey (Server.normalize c1) (Server.normalize s1),
            sha256hex (Server.getInputKey (Server.normalize c1)
              (Server.normalize s1))) :: st.inputKeyMap } c2 s2 =
        (.ok (sha256hex (Server.getInputKey (Server.normalize c1) (Server.normalize s1)))
          "pending",
         { store := (sha256hex (Server.getInputKey (Server.normalize c1)
              (Server.normalize s1)),
            { id := sha256hex (Server.getInputKey (Server.normalize c1)
                (Server.normalize s1))
              city := Server.normalize c1, sector := Server.normalize s1
              status := "pending", result := none, error := none
              suggestedCities := [] }) :: st.store
           inputKeyMap := (Server.getInputKey (Server.normalize c1) (Server.normalize s1),
            sha256hex (Server.getInputKey (Server.normalize c1)
              (Server.normalize s1))) :: st.inputKeyMap }) := by
      simp only [Server.submit]
      rw [if_neg hne2, hkey]
      simp [List.lookup, jsOr]
    have e3 : (Server.submit sha256hex st c2 s2).1 =
        .ok (sha256hex (Server.getInputKey (Server.normalize c1) (Server.normalize s1)))
          "pending" := by
      simp only [Server.submit]
      rw [if_neg hne2, hkey, hkv]
    refine ⟨by rw [e1, e3], sha256hex (Server.getInputKey (Server.normalize c1)
        (Server.normalize s1)), "pending", "pending", _, e1, e2⟩

/-- Witness for C2: " Pune"/"Baner " and "pune"/"BANER" differ only by case
and surrounding whitespace; both submissions get the same id and the second
leaves the state unchanged. -/
theorem submit_deterministic_dedup_witness :
    ((Server.submit (fun _ => "deadbeef") ⟨[], []⟩ " Pune" "Baner ").1
      = (Server.submit (fun _ => "deadbeef") ⟨[], []⟩ "pune" "BANER").1) ∧
    ∃ id status1 status2 st1,
      Server.submit (fun _ => "deadbeef") ⟨[], []⟩ " Pune" "Baner "
        = (.ok id status1, st1) ∧
      Server.submit (fun _ => "deadbeef") st1 "pune" "BANER"
        = (.ok id status2, st1) :=
  submit_deterministic_dedup (fun _ => "deadbeef") ⟨[], []⟩ " Pune" "Baner " "pune" "BANER"
    (by decide) (by decide) (by decide) (by decide)

end LocIntel

end LocationIntelligence
